import Mathlib

/-!
Shallow embedding of `sdss_fetch/downloader.py` (class `SDSSParallelDownloader`)
and proofs about its fallback-chain download engine.

Python integers that occur here (plate, mjd, fiber, HTTP status codes, loop
counters) are all non-negative in every reachable call, so they are modelled
as `Nat`.  Strings are Lean `String`s; Python f-strings are translated to
explicit `++` concatenation, which is what CPython's formatting performs.
Real time (`time.sleep`, timestamps) is dropped: log lines are modelled
without their timestamp prefix, since no control flow depends on it.
The network is a transport oracle keyed on the global request counter, and
the destination directory is the list of paths that exist in it.
-/

namespace SdssFetch

/-! ### Decimal rendering helpers (Python `format` / `str`) -/

/-- Decimal digit value of a character (the inverse of `Nat.digitChar`). -/
def digitVal (c : Char) : Nat := c.toNat - 48

/-- Parse a list of decimal digit characters, most significant first. -/
def parseDigits (l : List Char) : Nat := l.foldl (fun a c => 10 * a + digitVal c) 0

/-- Zero-pad `s` on the left to width `w`. -/
def padZeros (w : Nat) (s : String) : String :=
  ⟨List.replicate (w - s.length) '0'⟩ ++ s

/-- Models the f-string conversion of a non-negative `n` under format `04d`. -/
def pad4 (n : Nat) : String := padZeros 4 (Nat.repr n)

/-- Models the f-string conversion of a non-negative `n` under format `05d`. -/
def pad5 (n : Nat) : String := padZeros 5 (Nat.repr n)

/-! ### Path handling (`os.path`) -/

/-- Index of the last occurrence of `c` while scanning left to right:
`i` is the index of the head of `cs`, `acc` the best answer so far. -/
def rfindAux (cs : List Char) (c : Char) (i : Nat) (acc : Option Nat) : Option Nat :=
  match cs with
  | [] => acc
  | x :: xs => rfindAux xs c (i + 1) (if x = c then some i else acc)

/-- Index of the last occurrence of `c` in `cs` (models Python `str.rfind`,
with `none` in place of `-1`). -/
def rfindIdx (cs : List Char) (c : Char) : Option Nat := rfindAux cs c 0 none

/-- Models `os.path.splitext` (CPython `genericpath._splitext` with posix
separator): split at the last dot of the final path component unless every
character of that component before the dot is itself a dot. -/
def splitext (p : String) : String × String :=
  let cs := p.data
  let sepIdx : Nat := match rfindIdx cs ('/') with
    | none => 0
    | some i => i + 1
  match rfindIdx cs ('.') with
  | none => (p, "")
  | some d =>
    if sepIdx ≤ d ∧ ((cs.drop sepIdx).take (d - sepIdx)).any (fun x => x ≠ '.') then
      (⟨cs.take d⟩, ⟨cs.drop d⟩)
    else (p, "")

/-- Models `os.path.basename`: the part of `p` after the last slash. -/
def basename (p : String) : String :=
  ⟨(p.data.reverse.takeWhile (fun c => c ≠ '/')).reverse⟩

/-- The collision candidate built by the loop body of `get_unique_filename`:
base, underscore, counter, extension. -/
def suffixed (base ext : String) (counter : Nat) : String :=
  base ++ "_" ++ Nat.repr counter ++ ext

/-- The while-exists loop of `get_unique_filename`, unrolled on fuel; the
filesystem is modelled as the list `fs` of existing paths.
`uniqueFrom_free` shows that fuel `fs.length + 1` never runs out, so the base
case is unreachable and the loop semantics is exact. -/
def uniqueFrom (fs : List String) (base ext : String) : Nat → Nat → String
  | counter, 0 => suffixed base ext counter
  | counter, fuel + 1 =>
    if suffixed base ext counter ∈ fs then uniqueFrom fs base ext (counter + 1) fuel
    else suffixed base ext counter

/-- Models `SDSSParallelDownloader.get_unique_filename` over a filesystem
`fs`: return `filepath` if it does not exist, otherwise the first free
suffixed variant counting from 2. -/
def getUniqueFilename (fs : List String) (filepath : String) : String :=
  if filepath ∈ fs then
    uniqueFrom fs (splitext filepath).1 (splitext filepath).2 2 (fs.length + 1)
  else filepath

/-! ### The static data-release catalog -/

/-- The `dr_config` table: release tag ↦ (run2d, survey, dr directory tag).
A key outside the table would raise `KeyError` in Python; it is never looked
up, and is mapped to a sentinel here. -/
def drConfig (dr : String) : String × String × String :=
  match dr with
  | "dr16" => ("v5_13_0", "eboss", "dr16")
  | "dr17" => ("v5_13_2", "eboss", "dr17")
  | "dr18" => ("v6_0_4", "bhm", "dr18")
  | "dr15" => ("v5_10_0", "eboss", "dr15")
  | "dr14" => ("v5_10_0", "eboss", "dr14")
  | "dr13" => ("v5_9_0", "eboss", "dr13")
  | "dr12" => ("v5_7_0", "boss", "dr12")
  | "dr11" => ("v5_7_0", "boss", "dr11")
  | "dr10" => ("v5_5_12", "boss", "dr10")
  | "dr9" => ("v5_5_12", "boss", "dr9")
  | "dr8" => ("v5_4_45", "sdss", "dr8")
  | _ => ("", "", "")

/-- The `run2d_multi` table; the source reads it with a `.get` whose default
is the empty list, which the catch-all arm reproduces. -/
def run2dMulti (dr : String) : List String :=
  match dr with
  | "dr16" => ["26", "103", "104", "v5_13_0"]
  | "dr17" => ["v5_13_2"]
  | "dr18" => ["v6_0_4"]
  | "dr15" => ["v5_10_0"]
  | "dr14" => ["v5_10_0", "26", "103", "104"]
  | "dr13" => ["v5_9_0"]
  | "dr12" => ["v5_7_0", "v5_7_2", "26", "103", "104"]
  | "dr11" => ["v5_7_0"]
  | "dr10" => ["v5_5_12", "26", "103", "104"]
  | "dr9" => ["v5_5_12"]
  | "dr8" => ["v5_4_45"]
  | _ => []

/-- Models `self.dr_list`: the keys of `dr_config` in dict insertion order. -/
def drList : List String :=
  ["dr16", "dr17", "dr18", "dr15", "dr14", "dr13", "dr12", "dr11", "dr10", "dr9", "dr8"]

/-- The numeric part of a release tag (16 for dr16, ...), used to say which
catalog entry is newest. -/
def relNum (dr : String) : Nat := parseDigits (dr.data.drop 2)

/-- The release tag of largest number present in the catalog. -/
def newestRelease : String :=
  drList.foldl (fun best dr => if relNum best < relNum dr then dr else best) "dr0"

/-! ### URL construction -/

/-- Models `construct_sas_url` (an f-string, written as concatenation). -/
def constructSasUrl (dr : String) (plate mjd fiber : Nat) : String :=
  "https://" ++ dr ++ ".sdss.org/sas/" ++ dr ++ "/spectro/" ++ (drConfig dr).2.1 ++
    "/redux/" ++ (drConfig dr).1 ++ "/spectra/lite/" ++ pad4 plate ++ "/spec-" ++
    pad4 plate ++ "-" ++ Nat.repr mjd ++ "-" ++ pad4 fiber ++ ".fits"

/-- Models `construct_api_url`. -/
def constructApiUrl (dr : String) (plate mjd fiber : Nat) : String :=
  "https://" ++ dr ++ ".sdss.org/optical/spectrum/view/data/format=fits/spec=lite?plateid=" ++
    Nat.repr plate ++ "&mjd=" ++ Nat.repr mjd ++ "&fiberid=" ++ Nat.repr fiber

/-- Models `construct_sdss_org_url`. -/
def constructSdssOrgUrl (dr run2d : String) (plate mjd fiber : Nat) : String :=
  "https://data.sdss.org/sas/" ++ dr ++ "/sdss/spectro/redux/" ++ run2d ++
    "/spectra/lite/" ++ pad4 plate ++ "/spec-" ++ pad4 plate ++ "-" ++ Nat.repr mjd ++
    "-" ++ pad4 fiber ++ ".fits"

/-- The hard-coded priority URL of `try_download` (DR16 lite SAS fast path).
Note the path order `eboss/spectro`, where `construct_sas_url` for dr16 has
`spectro/eboss`. -/
def priorityUrl (plate mjd fiber : Nat) : String :=
  "https://dr16.sdss.org/sas/dr16/eboss/spectro/redux/v5_13_0/spectra/lite/" ++
    pad4 plate ++ "/spec-" ++ pad4 plate ++ "-" ++ Nat.repr mjd ++ "-" ++ pad4 fiber ++ ".fits"

/-- One candidate of the fallback chain: the URL and the strategy tag that
`try_download` writes into the success log line. -/
structure Candidate where
  url : String
  tag : String
deriving DecidableEq

/-- The candidates of fallback methods 1 to 3 of `try_download`, in the order
the nested loops of the source produce them: fallback 1 sweeps the release
list times its run2d variants, fallback 2 is the single DR16 API call,
fallback 3 interleaves SAS and API paths over the release list. -/
def fallbackCandidates (plate mjd fiber : Nat) : List Candidate :=
  (drList.flatMap fun dr =>
    (run2dMulti dr).map fun run2d =>
      ⟨constructSdssOrgUrl dr run2d plate mjd fiber, dr ++ " sdss.org run2d=" ++ run2d⟩) ++
  [⟨constructApiUrl ("dr16") plate mjd fiber, "DR16 API"⟩] ++
  (drList.flatMap fun dr =>
    [⟨constructSasUrl dr plate mjd fiber, dr ++ " SAS"⟩,
     ⟨constructApiUrl dr plate mjd fiber, dr ++ " API"⟩])

/-- The full candidate sequence tried by `try_download`: the priority fast
path followed by the three fallback tiers. -/
def candidates (plate mjd fiber : Nat) : List Candidate :=
  ⟨priorityUrl plate mjd fiber, "Priority DR16 Lite SAS"⟩ :: fallbackCandidates plate mjd fiber

/-! ### Factored views of the candidate URLs, used for distinctness proofs.
Every SAS-style URL is a static head followed by the plate-path tail, every
API-style URL a static head followed by the query tail. -/

def sasHead (dr : String) : String :=
  "https://" ++ dr ++ ".sdss.org/sas/" ++ dr ++ "/spectro/" ++ (drConfig dr).2.1 ++
    "/redux/" ++ (drConfig dr).1 ++ "/spectra/lite/"

def sdssOrgHead (dr run2d : String) : String :=
  "https://data.sdss.org/sas/" ++ dr ++ "/sdss/spectro/redux/" ++ run2d ++ "/spectra/lite/"

def apiHead (dr : String) : String :=
  "https://" ++ dr ++ ".sdss.org/optical/spectrum/view/data/format=fits/spec=lite?plateid="

def priorityHead : String :=
  "https://dr16.sdss.org/sas/dr16/eboss/spectro/redux/v5_13_0/spectra/lite/"

def sasTail (plate mjd fiber : Nat) : String :=
  pad4 plate ++ "/spec-" ++ pad4 plate ++ "-" ++ Nat.repr mjd ++ "-" ++ pad4 fiber ++ ".fits"

def apiTail (plate mjd fiber : Nat) : String :=
  Nat.repr plate ++ "&mjd=" ++ Nat.repr mjd ++ "&fiberid=" ++ Nat.repr fiber

/-- Rebuild a candidate URL from its static head: left summand = SAS-style,
right summand = API-style. -/
def renderHead (plate mjd fiber : Nat) : Sum String String → String
  | .inl h => h ++ sasTail plate mjd fiber
  | .inr h => h ++ apiTail plate mjd fiber

/-- The static heads of all 48 candidates, in candidate order. -/
def headsFull : List (Sum String String) :=
  .inl priorityHead ::
  ((drList.flatMap fun dr => (run2dMulti dr).map fun r => .inl (sdssOrgHead dr r)) ++
   [.inr (apiHead ("dr16"))] ++
   (drList.flatMap fun dr => [.inl (sasHead dr), .inr (apiHead dr)]))

/-- The candidate heads with the fallback-2 entry (index 25, the DR16 API
tier) removed; the DR16 API head still occurs once, inside fallback 3. -/
def headsDeduped : List (Sum String String) := headsFull.eraseIdx 25

/-- Checks the head classification: SAS-style heads contain no query
character, API-style heads contain one. -/
def qKind : Sum String String → Bool
  | .inl s => decide ('?' ∉ s.data)
  | .inr s => decide ('?' ∈ s.data)

/-! ### The audit sink and the transport model -/

/-- The audit-visible state threaded through a run.  `fs` is the set of
existing files in the destination directory (newest first), `log` the lines
of the downloader log (newest first, timestamps dropped), `failed` the lines
of the failed-target list (newest first), `console` the print output (newest
first), and `attemptCount` the number of network requests made so far. -/
structure RunState where
  fs : List String
  log : List String
  failed : List String
  console : List String
  attemptCount : Nat
deriving DecidableEq

/-- The state of a fresh run: empty destination directory, empty logs. -/
def initState : RunState := ⟨[], [], [], [], 0⟩

def logMsg (st : RunState) (m : String) : RunState := { st with log := m :: st.log }

def consoleMsg (st : RunState) (m : String) : RunState := { st with console := m :: st.console }

/-- Models the line `log_failed` appends: plate, mjd, fiber, tab-separated. -/
def failedEntry (plate mjd fiber : Nat) : String :=
  Nat.repr plate ++ "\t" ++ Nat.repr mjd ++ "\t" ++ Nat.repr fiber

def logFailed (st : RunState) (plate mjd fiber : Nat) : RunState :=
  { st with failed := failedEntry plate mjd fiber :: st.failed }

/-- Outcome of one `requests.get` call, supplied by a simulated transport
keyed on the global attempt counter.
`resp code wf`: the request returned a response with status `code`; when
`code = 200` the payload write runs, and `wf = some e` means the local write
(the `open`, before any byte lands) raises exception `e`.
`exc e`: `requests.get` itself raised exception `e` (timeout, connection
error, ...). -/
inductive AttemptResult where
  | resp (code : Nat) (wf : Option String)
  | exc (e : String)
deriving DecidableEq

/-- A transport oracle: the result of the n-th network request of the run. -/
def Transport := Nat → AttemptResult

/-- Whether an attempt result lets `download_with_retry` return success. -/
def AttemptResult.isOk : AttemptResult → Bool
  | .resp 200 none => true
  | _ => false

/-- Replace a local write failure (a 200 response whose payload write raises)
by a network exception carrying the same message; used to state that the
source handles both through the identical except clause. -/
def maskWriteExc (a : AttemptResult) : AttemptResult :=
  match a with
  | .resp code wf =>
    if code = 200 then
      match wf with
      | some e => .exc e
      | none => .resp code wf
    else .resp code wf
  | .exc e => .exc e

/-! ### Log line shapes (the exact messages of the source, sans timestamp) -/

def downloadedLine (path url : String) : String :=
  "✓ Downloaded: " ++ path ++ " ← " ++ url

def attemptFailLine (url : String) (n : Nat) (e : String) : String :=
  "× Attempt " ++ Nat.repr n ++ " failed: " ++ url ++ " → " ++ e

def finalFailLine (url : String) : String := "× Final failure: " ++ url

def methodLine (name tag : String) : String := "✓ " ++ name ++ " (" ++ tag ++ ")"

def allFailedLine (fnBase : String) : String := "× " ++ fnBase ++ ": All methods failed."

/-- The log lines a single failed attempt writes: an exception (network or
write) logs one attempt line; a response with a non-success status logs
nothing.  `n` is the 1-based attempt number. -/
def attemptLogOf (a : AttemptResult) (n : Nat) (url : String) : List String :=
  match a with
  | .resp code wf =>
    if code = 200 then
      match wf with
      | none => []
      | some e => [attemptFailLine url n e]
    else []
  | .exc e => [attemptFailLine url n e]

/-! ### The retry executor, fallback controller and scheduler -/

/-- The body of one iteration of the two-attempt loop of
`download_with_retry`: returns `some name` on the early success return,
`none` when the iteration falls through to the sleep. -/
def attemptOnce (T : Transport) (url filepath : String) (verbose : Bool)
    (index attempt : Nat) (st : RunState) : Option String × RunState :=
  let res := T st.attemptCount
  let st := { st with attemptCount := st.attemptCount + 1 }
  match res with
  | .resp code wf =>
    if code = 200 then
      match wf with
      | none =>
        let finalPath := getUniqueFilename st.fs filepath
        let st := { st with fs := finalPath :: st.fs }
        let st := logMsg st (downloadedLine finalPath url)
        let st := if verbose then
            consoleMsg st ("[" ++ Nat.repr (index + 1) ++ "] ✓ " ++ basename finalPath)
          else st
        (some (basename finalPath), st)
      | some e =>
        (none, logMsg st (attemptFailLine url (attempt + 1) e))
    else
      (none, st)
  | .exc e =>
    (none, logMsg st (attemptFailLine url (attempt + 1) e))

/-- Models `download_with_retry`: the two-attempt loop unrolled (attempts 0
and 1), then the final-failure log line and the failure return with an empty
name.  A non-200 status logs nothing — only the except clause writes an
attempt line — and a write failure is caught by that same except clause. -/
def downloadWithRetry (T : Transport) (url filepath : String) (verbose : Bool)
    (index : Nat) (st : RunState) : (Bool × String) × RunState :=
  match attemptOnce T url filepath verbose index 0 st with
  | (some name, st) => ((true, name), st)
  | (none, st) =>
    match attemptOnce T url filepath verbose index 1 st with
    | (some name, st) => ((true, name), st)
    | (none, st) => ((false, ""), logMsg st (finalFailLine url))

/-- The filename stem of a target, before the extension. -/
def specStem (plate mjd fiber : Nat) : String :=
  "spec-" ++ pad4 plate ++ "-" ++ Nat.repr mjd ++ "-" ++ pad5 fiber

/-- Models the local filename of `try_download`: plate padded to 4, fiber
padded to 5 digits. -/
def filenameBase (plate mjd fiber : Nat) : String :=
  specStem plate mjd fiber ++ ".fits"

/-- The walk of `try_download` over its fallback candidates (the three
fallback-method blocks): each candidate goes through `download_with_retry`;
the first success logs the method line and returns the name with success; if
the list is exhausted the final-failure block of `try_download` runs. -/
def tryCandidates (T : Transport) (fnBase filepath : String) (plate mjd fiber index : Nat)
    (verbose : Bool) : List Candidate → RunState → (String × Bool) × RunState
  | [], st =>
    let st := logMsg st (allFailedLine fnBase)
    let st := logFailed st plate mjd fiber
    let st := if verbose then
        consoleMsg st ("[" ++ Nat.repr (index + 1) ++ "] × " ++ fnBase ++ ": All methods failed.")
      else st
    ((fnBase, false), st)
  | c :: rest, st =>
    match downloadWithRetry T c.url filepath verbose index st with
    | ((true, name), st) => ((name, true), logMsg st (methodLine name c.tag))
    | ((false, _), st) => tryCandidates T fnBase filepath plate mjd fiber index verbose rest st

/-- Models `try_download`: the verbose banner, the priority DR16 fast path
(with its own success log line and, on failure, the verbose fallback notice),
then the three fallback tiers via `tryCandidates`. -/
def tryDownload (T : Transport) (outputDir : String) (plate mjd fiber index : Nat)
    (verbose : Bool) (st : RunState) : (String × Bool) × RunState :=
  let st := if verbose then
      consoleMsg st ("[" ++ Nat.repr (index + 1) ++ "] Starting download...")
    else st
  let fnBase := filenameBase plate mjd fiber
  let filepath := outputDir ++ "/" ++ fnBase
  match downloadWithRetry T (priorityUrl plate mjd fiber) filepath verbose index st with
  | ((true, name), st) =>
    ((name, true), logMsg st (methodLine name ("Priority DR16 Lite SAS")))
  | ((false, _), st) =>
    let st := if verbose then
        consoleMsg st ("[" ++ Nat.repr (index + 1) ++ "] Priority DR16 Lite SAS failed. Trying fallback methods...")
      else st
    tryCandidates T fnBase filepath plate mjd fiber index verbose
      (fallbackCandidates plate mjd fiber) st

/-- The zipped target list of `download_all` (Python `zip` truncates to the
shortest input; `enumerate` supplies the index). -/
def zip3 (plates mjds fibers : List Nat) : List (Nat × Nat × Nat) :=
  plates.zip (mjds.zip fibers)

/-- The per-target loop body of `download_all`, run sequentially.  The thread
pool runs the same calls under a worker bound; outcomes are per-target and
the audit state is the only shared resource, so the sequential interleaving
models one admissible schedule.  The returned list is the materialized
executor-map value that `download_all` builds — and then discards: the source
function returns `None`. -/
def downloadAllResults (T : Transport) (outputDir : String)
    (plates mjds fibers : List Nat) (verbose : Bool) (st : RunState) :
    List (String × Bool) × RunState :=
  go (zip3 plates mjds fibers) 0 st
where
  go : List (Nat × Nat × Nat) → Nat → RunState → List (String × Bool) × RunState
    | [], _, st => ([], st)
    | (p, m, f) :: rest, i, st =>
      let r := tryDownload T outputDir p m f i verbose st
      let rs := go rest (i + 1) r.2
      (r.1 :: rs.1, rs.2)

/-- Models the observable effect of `download_all`.  When `verbose` is false
the source also prints start/end timestamps and the duration; those three
lines are modelled without their clock values, since nothing else depends on
them.  Nothing is returned: the outcome list stays internal. -/
def downloadAll (T : Transport) (outputDir : String)
    (plates mjds fibers : List Nat) (verbose : Bool) (st : RunState) : RunState :=
  let st := if verbose then st else consoleMsg st ("Started at ")
  let st := (downloadAllResults T outputDir plates mjds fibers verbose st).2
  let st := if verbose then st else consoleMsg (consoleMsg st ("Completed at ")) ("Duration: ")
  st

/-! ## Theorems -/

theorem toDigitsCore_acc (fuel : Nat) :
    ∀ (n : Nat) (acc : List Char),
      Nat.toDigitsCore 10 fuel n acc = Nat.toDigitsCore 10 fuel n [] ++ acc := by
  induction fuel with
  | zero => intro n acc; simp [Nat.toDigitsCore]
  | succ fuel ih =>
    intro n acc
    simp only [Nat.toDigitsCore]
    by_cases h : n / 10 = 0
    · simp [h]
    · simp only [h, if_neg]
      rw [ih (n / 10) [Nat.digitChar (n % 10)], ih (n / 10) (Nat.digitChar (n % 10) :: acc)]
      simp

theorem digitVal_digitChar (r : Nat) (h : r < 10) :
    digitVal (Nat.digitChar r) = r := by
  interval_cases r <;> rfl

theorem parseDigits_append (l : List Char) (c : Char) :
    parseDigits (l ++ [c]) = 10 * parseDigits l + digitVal c := by
  simp [parseDigits, List.foldl_append]

theorem parse_toDigitsCore (fuel : Nat) :
    ∀ n : Nat, n < fuel → parseDigits (Nat.toDigitsCore 10 fuel n []) = n := by
  induction fuel with
  | zero => intro n h; omega
  | succ fuel ih =>
    intro n h
    simp only [Nat.toDigitsCore]
    by_cases hd : n / 10 = 0
    · rw [if_pos hd]
      simp only [parseDigits, List.foldl_cons, List.foldl_nil, Nat.mul_zero, Nat.zero_add]
      rw [digitVal_digitChar (n % 10) (Nat.mod_lt _ (by omega))]
      omega
    · rw [if_neg hd, toDigitsCore_acc, parseDigits_append]
      have hnpos : 0 < n := by
        by_contra hz
        have : n = 0 := by omega
        simp [this] at hd
      have hlt : n / 10 < fuel := by
        have : n / 10 < n := Nat.div_lt_self hnpos (by omega)
        omega
      rw [ih (n / 10) hlt, digitVal_digitChar (n % 10) (Nat.mod_lt _ (by omega))]
      omega

theorem parseDigits_repr (n : Nat) : parseDigits (Nat.repr n).data = n := by
  have : (Nat.repr n).data = Nat.toDigitsCore 10 (n + 1) n [] := rfl
  rw [this]
  exact parse_toDigitsCore (n + 1) n (Nat.lt_succ_self n)

theorem repr_injective : Function.Injective Nat.repr := by
  intro m n h
  have := congrArg (fun s : String => parseDigits s.data) h
  simpa [parseDigits_repr] using this

theorem digitChar_isDigit (r : Nat) (h : r < 10) :
    (Nat.digitChar r).isDigit = true := by
  interval_cases r <;> rfl

theorem toDigitsCore_isDigit (fuel : Nat) :
    ∀ (n : Nat) (acc : List Char), (∀ c ∈ acc, c.isDigit = true) →
      ∀ c ∈ Nat.toDigitsCore 10 fuel n acc, c.isDigit = true := by
  induction fuel with
  | zero => intro n acc hacc; simpa [Nat.toDigitsCore] using hacc
  | succ fuel ih =>
    intro n acc hacc c hc
    simp only [Nat.toDigitsCore] at hc
    by_cases hd : n / 10 = 0
    · simp only [hd, if_pos] at hc
      rcases List.mem_cons.mp hc with h | h
      · subst h; exact digitChar_isDigit _ (Nat.mod_lt _ (by omega))
      · exact hacc c h
    · simp only [hd, if_neg] at hc
      refine ih (n / 10) _ ?_ c hc
      intro x hx
      rcases List.mem_cons.mp hx with h | h
      · subst h; exact digitChar_isDigit _ (Nat.mod_lt _ (by omega))
      · exact hacc x h

theorem repr_isDigit (n : Nat) : ∀ c ∈ (Nat.repr n).data, c.isDigit = true := by
  have : (Nat.repr n).data = Nat.toDigitsCore 10 (n + 1) n [] := rfl
  rw [this]
  exact toDigitsCore_isDigit (n + 1) n [] (by simp)

theorem pad4_isDigit (n : Nat) : ∀ c ∈ (pad4 n).data, c.isDigit = true := by
  intro c hc
  simp only [pad4, padZeros, String.data_append] at hc
  rcases List.mem_append.mp hc with h | h
  · have := List.eq_of_mem_replicate h
    subst this; rfl
  · exact repr_isDigit n c h

theorem pad5_isDigit (n : Nat) : ∀ c ∈ (pad5 n).data, c.isDigit = true := by
  intro c hc
  simp only [pad5, padZeros, String.data_append] at hc
  rcases List.mem_append.mp hc with h | h
  · have := List.eq_of_mem_replicate h
    subst this; rfl
  · exact repr_isDigit n c h

theorem string_append_right_cancel {a b t : String} (h : a ++ t = b ++ t) : a = b := by
  apply String.ext
  have hd := congrArg String.data h
  simp only [String.data_append] at hd
  exact List.append_cancel_right hd

theorem no_q_of_digits (s : String) (hd : ∀ c ∈ s.data, c.isDigit = true) :
    '?' ∉ s.data := fun h => absurd (hd _ h) (by decide)

theorem sasTail_all_no_q (p m f : Nat) : ∀ c ∈ (sasTail p m f).data, c ≠ '?' := by
  have hp := pad4_isDigit p
  have hm := repr_isDigit m
  have hf := pad4_isDigit f
  simp only [sasTail, String.data_append, List.forall_mem_append]
  repeat' apply And.intro
  all_goals
    first
    | decide
    | (intro c hc hq
       rw [hq] at hc
       first
       | exact absurd (hp _ hc) (by decide)
       | exact absurd (hm _ hc) (by decide)
       | exact absurd (hf _ hc) (by decide))

theorem sasTail_no_q (p m f : Nat) : '?' ∉ (sasTail p m f).data :=
  fun h => sasTail_all_no_q p m f ('?') h rfl

theorem sas_factor (dr : String) (p m f : Nat) :
    constructSasUrl dr p m f = sasHead dr ++ sasTail p m f := by
  simp [constructSasUrl, sasHead, sasTail, String.append_assoc]

theorem api_factor (dr : String) (p m f : Nat) :
    constructApiUrl dr p m f = apiHead dr ++ apiTail p m f := by
  simp [constructApiUrl, apiHead, apiTail, String.append_assoc]

theorem sdssOrg_factor (dr r : String) (p m f : Nat) :
    constructSdssOrgUrl dr r p m f = sdssOrgHead dr r ++ sasTail p m f := by
  simp [constructSdssOrgUrl, sdssOrgHead, sasTail, String.append_assoc]

theorem priority_factor (p m f : Nat) :
    priorityUrl p m f = priorityHead ++ sasTail p m f := by
  simp [priorityUrl, priorityHead, sasTail, String.append_assoc]

/-- The 48 candidate URLs are exactly the 48 static heads, each completed
with the tail (SAS path tail or API query tail) of the target. -/
theorem candidates_url_render (p m f : Nat) :
    (candidates p m f).map (fun c => c.url) = headsFull.map (renderHead p m f) := by
  simp [candidates, fallbackCandidates, headsFull, drList, run2dMulti, renderHead,
    sas_factor, api_factor, sdssOrg_factor, priority_factor]

/-- The per-head classification that separates SAS-style from API-style URLs:
every SAS head is free of the query character, every API head contains it. -/
theorem headsDeduped_q_all : headsDeduped.all qKind = true := by decide

theorem headsDeduped_q : ∀ x ∈ headsDeduped, qKind x = true := by
  have := List.all_eq_true.mp headsDeduped_q_all
  exact this

theorem headsDeduped_nodup : headsDeduped.Nodup := by decide

theorem renderHead_inj (p m f : Nat) :
    ∀ x ∈ headsDeduped, ∀ y ∈ headsDeduped,
      renderHead p m f x = renderHead p m f y → x = y := by
  intro x hx y hy hxy
  have qx := headsDeduped_q x hx
  have qy := headsDeduped_q y hy
  cases x with
  | inl a =>
    cases y with
    | inl b =>
      simp only [renderHead] at hxy
      rw [string_append_right_cancel hxy]
    | inr b =>
      exfalso
      simp only [renderHead] at hxy
      have hqa : '?' ∉ a.data := of_decide_eq_true qx
      have hqb : '?' ∈ b.data := of_decide_eq_true qy
      have hmem : '?' ∈ (b ++ apiTail p m f).data := by
        simp only [String.data_append, List.mem_append]
        exact Or.inl hqb
      rw [← hxy] at hmem
      simp only [String.data_append, List.mem_append] at hmem
      rcases hmem with h | h
      · exact hqa h
      · exact sasTail_no_q p m f h
  | inr a =>
    cases y with
    | inl b =>
      exfalso
      simp only [renderHead] at hxy
      have hqa : '?' ∈ a.data := of_decide_eq_true qx
      have hqb : '?' ∉ b.data := of_decide_eq_true qy
      have hmem : '?' ∈ (a ++ apiTail p m f).data := by
        simp only [String.data_append, List.mem_append]
        exact Or.inl hqa
      rw [hxy] at hmem
      simp only [String.data_append, List.mem_append] at hmem
      rcases hmem with h | h
      · exact hqb h
      · exact sasTail_no_q p m f h
    | inr b =>
      simp only [renderHead] at hxy
      rw [string_append_right_cancel hxy]

theorem map_eraseIdx {α β : Type} (g : α → β) :
    ∀ (l : List α) (i : Nat), (l.map g).eraseIdx i = (l.eraseIdx i).map g := by
  intro l
  induction l with
  | nil => intro i; simp
  | cons a l ih =>
    intro i
    cases i with
    | zero => simp [List.eraseIdx]
    | succ i => simp [List.eraseIdx, ih i]

set_option maxRecDepth 8192 in
/-- C5 (amended): for every target, the candidate URL sequence contains
exactly one duplication — the DR16 generic-API URL is produced both as the
tier-3 candidate (index 25) and inside the tier-4 full sweep (index 27) —
and after removing the tier-3 entry the remaining 47 URLs are pairwise
distinct. -/
theorem candidate_urls_dedup_except_dr16_api (p m f : Nat) :
    ((candidates p m f).map (fun c => c.url))[25]? = some (constructApiUrl ("dr16") p m f)
  ∧ ((candidates p m f).map (fun c => c.url))[27]? = some (constructApiUrl ("dr16") p m f)
  ∧ (((candidates p m f).map (fun c => c.url)).eraseIdx 25).Nodup := by
  refine ⟨rfl, rfl, ?_⟩
  rw [candidates_url_render, map_eraseIdx]
  exact List.Nodup.map_on (renderHead_inj p m f) headsDeduped_nodup

set_option maxRecDepth 8192 in
/-- C5 fails as stated: for the concrete target (751, 52251, 160) the
candidate URL sequence is not duplicate-free — the URL at index 25 (the
tier-3 DR16 API endpoint) reappears at index 27 (the tier-4 sweep). -/
theorem candidate_urls_duplicate :
    ((candidates 751 52251 160).map (fun c => c.url))[25]? =
      ((candidates 751 52251 160).map (fun c => c.url))[27]?
  ∧ ¬ ((candidates 751 52251 160).map (fun c => c.url)).Nodup := by
  have hEq : ((candidates 751 52251 160).map (fun c => c.url))[25]? =
      ((candidates 751 52251 160).map (fun c => c.url))[27]? := rfl
  refine ⟨hEq, fun h => ?_⟩
  have hlen : ((candidates 751 52251 160).map (fun c => c.url)).length = 48 := rfl
  have h25 : 25 < ((candidates 751 52251 160).map (fun c => c.url)).length := by
    rw [hlen]; omega
  exact absurd (List.getElem?_inj h25 h hEq) (by decide)

set_option maxRecDepth 8192 in
/-- C6 fails as stated: the third-tier candidate (index 25) is the generic
API endpoint for dr16, while the newest release present in the catalog is
dr18, and the two endpoints differ — shown at target (751, 52251, 160). -/
theorem generic_api_not_newest :
    newestRelease = "dr18"
  ∧ ((candidates 751 52251 160).map (fun c => c.url))[25]? =
      some (constructApiUrl ("dr16") 751 52251 160)
  ∧ constructApiUrl ("dr16") 751 52251 160 ≠ constructApiUrl newestRelease 751 52251 160 := by
  exact ⟨rfl, rfl, by decide⟩

set_option maxRecDepth 8192 in
/-- C6 (amended): for every target the third-tier candidate — the single
generic API endpoint tried after the per-release legacy sweep — is built for
dr16, the priority fast-path release (the first key of the catalog), not for
the newest release of the catalog, which is dr18. -/
theorem generic_api_is_dr16 (p m f : Nat) :
    (candidates p m f)[25]? = some ⟨constructApiUrl ("dr16") p m f, "DR16 API"⟩
  ∧ drList[0]? = some ("dr16")
  ∧ newestRelease = "dr18"
  ∧ "dr18" ∈ drList
  ∧ ∀ dr ∈ drList, relNum dr ≤ relNum newestRelease := by
  exact ⟨rfl, rfl, rfl, by decide, by decide⟩


/-! ### Behaviour of the retry executor -/

theorem attemptOnce_not_ok (T : Transport) (url fp : String) (v : Bool) (idx att : Nat)
    (st : RunState) (h : (T st.attemptCount).isOk = false) :
    attemptOnce T url fp v idx att st =
      (none,
       ⟨st.fs, attemptLogOf (T st.attemptCount) (att + 1) url ++ st.log,
        st.failed, st.console, st.attemptCount + 1⟩) := by
  cases hT : T st.attemptCount with
  | exc e => simp [attemptOnce, hT, attemptLogOf, logMsg]
  | resp code wf =>
    by_cases hc : code = 200
    · subst hc
      cases wf with
      | none => rw [hT] at h; simp [AttemptResult.isOk] at h
      | some e => simp [attemptOnce, hT, attemptLogOf, logMsg]
    · simp [attemptOnce, hT, hc, attemptLogOf]

theorem attemptOnce_ok (T : Transport) (url fp : String) (v : Bool) (idx att : Nat)
    (st : RunState) (h : T st.attemptCount = .resp 200 none) :
    attemptOnce T url fp v idx att st =
      (some (basename (getUniqueFilename st.fs fp)),
       ⟨getUniqueFilename st.fs fp :: st.fs,
        downloadedLine (getUniqueFilename st.fs fp) url :: st.log,
        st.failed,
        (if v then
          ("[" ++ Nat.repr (idx + 1) ++ "] ✓ " ++ basename (getUniqueFilename st.fs fp))
            :: st.console
         else st.console),
        st.attemptCount + 1⟩) := by
  cases v <;> simp [attemptOnce, h, logMsg, consoleMsg]

theorem downloadWithRetry_fail (T : Transport) (url fp : String) (v : Bool) (idx : Nat)
    (st : RunState)
    (h0 : (T st.attemptCount).isOk = false)
    (h1 : (T (st.attemptCount + 1)).isOk = false) :
    downloadWithRetry T url fp v idx st =
      ((false, ""),
       ⟨st.fs,
        finalFailLine url ::
          (attemptLogOf (T (st.attemptCount + 1)) 2 url ++
            (attemptLogOf (T st.attemptCount) 1 url ++ st.log)),
        st.failed, st.console, st.attemptCount + 2⟩) := by
  rw [downloadWithRetry, attemptOnce_not_ok T url fp v idx 0 st h0]
  dsimp only
  rw [attemptOnce_not_ok T url fp v idx 1 _ h1]
  dsimp only
  simp [logMsg]

theorem downloadWithRetry_ok_first (T : Transport) (url fp : String) (v : Bool) (idx : Nat)
    (st : RunState) (h : T st.attemptCount = .resp 200 none) :
    downloadWithRetry T url fp v idx st =
      ((true, basename (getUniqueFilename st.fs fp)),
       ⟨getUniqueFilename st.fs fp :: st.fs,
        downloadedLine (getUniqueFilename st.fs fp) url :: st.log,
        st.failed,
        (if v then
          ("[" ++ Nat.repr (idx + 1) ++ "] ✓ " ++ basename (getUniqueFilename st.fs fp))
            :: st.console
         else st.console),
        st.attemptCount + 1⟩) := by
  rw [downloadWithRetry, attemptOnce_ok T url fp v idx 0 st h]

theorem downloadWithRetry_ok_second (T : Transport) (url fp : String) (v : Bool) (idx : Nat)
    (st : RunState)
    (h0 : (T st.attemptCount).isOk = false)
    (h1 : T (st.attemptCount + 1) = .resp 200 none) :
    downloadWithRetry T url fp v idx st =
      ((true, basename (getUniqueFilename st.fs fp)),
       ⟨getUniqueFilename st.fs fp :: st.fs,
        downloadedLine (getUniqueFilename st.fs fp) url ::
          (attemptLogOf (T st.attemptCount) 1 url ++ st.log),
        st.failed,
        (if v then
          ("[" ++ Nat.repr (idx + 1) ++ "] ✓ " ++ basename (getUniqueFilename st.fs fp))
            :: st.console
         else st.console),
        st.attemptCount + 2⟩) := by
  rw [downloadWithRetry, attemptOnce_not_ok T url fp v idx 0 st h0]
  dsimp only
  rw [attemptOnce_ok T url fp v idx 1 _ h1]


/-! ### Behaviour of the fallback controller -/

theorem candidates_length (p m f : Nat) : (candidates p m f).length = 48 := rfl

theorem fallbackCandidates_length (p m f : Nat) : (fallbackCandidates p m f).length = 47 := rfl

/-- Walking a candidate list on a transport that fails every attempt makes
exactly two attempts per candidate, returns the failure outcome carrying the
base filename, appends the target once to the failed list, and leaves the
filesystem untouched. -/
theorem tryCandidates_all_fail (T : Transport) (fnB fp : String) (p m f idx : Nat) (v : Bool) :
    ∀ (cands : List Candidate) (st : RunState),
      (∀ i, i < 2 * cands.length → (T (st.attemptCount + i)).isOk = false) →
      ∃ L : List String,
        tryCandidates T fnB fp p m f idx v cands st =
          ((fnB, false),
           ⟨st.fs,
            (allFailedLine fnB :: L) ++ st.log,
            failedEntry p m f :: st.failed,
            (if v then
              ("[" ++ Nat.repr (idx + 1) ++ "] × " ++ fnB ++ ": All methods failed.")
                :: st.console
             else st.console),
            st.attemptCount + 2 * cands.length⟩) := by
  intro cands
  induction cands with
  | nil =>
    intro st hfail
    refine ⟨[], ?_⟩
    cases v <;> simp [tryCandidates, logMsg, logFailed, consoleMsg]
  | cons c rest ih =>
    intro st hfail
    have h0 : (T st.attemptCount).isOk = false := by
      have := hfail 0 (by simp)
      simpa using this
    have h1 : (T (st.attemptCount + 1)).isOk = false := by
      have := hfail 1 (by simp; omega)
      simpa using this
    rw [tryCandidates, downloadWithRetry_fail T c.url fp v idx st h0 h1]
    dsimp only
    obtain ⟨L, hL⟩ := ih
      ⟨st.fs,
        finalFailLine c.url ::
          (attemptLogOf (T (st.attemptCount + 1)) 2 c.url ++
            (attemptLogOf (T st.attemptCount) 1 c.url ++ st.log)),
        st.failed, st.console, st.attemptCount + 2⟩
      (by
        intro i hi
        have := hfail (2 + i) (by simp at hi ⊢; omega)
        have e : st.attemptCount + (2 + i) = st.attemptCount + 2 + i := by omega
        rw [e] at this
        simpa using this)
    rw [hL]
    refine ⟨L ++ (finalFailLine c.url ::
      (attemptLogOf (T (st.attemptCount + 1)) 2 c.url ++
        attemptLogOf (T st.attemptCount) 1 c.url)), ?_⟩
    simp [List.append_assoc]
    omega

/-- Walking a candidate list on a transport that fails every attempt before
candidate `k` and succeeds at candidate `k` (on its first or second attempt)
stops at candidate `k`: it returns success with that candidate's method tag
as the newest log line, writes the file, touches the failed list not at all,
and makes no attempt beyond the successful one. -/
theorem tryCandidates_success_at (T : Transport) (fnB fp : String) (p m f idx : Nat) (v : Bool) :
    ∀ (k : Nat) (cands : List Candidate) (st : RunState) (hk : k < cands.length),
      (∀ i, i < 2 * k → (T (st.attemptCount + i)).isOk = false) →
      (T (st.attemptCount + 2 * k) = .resp 200 none ∨
        ((T (st.attemptCount + 2 * k)).isOk = false ∧
          T (st.attemptCount + 2 * k + 1) = .resp 200 none)) →
      ∃ st' : RunState,
        tryCandidates T fnB fp p m f idx v cands st =
          ((basename (getUniqueFilename st.fs fp), true), st')
        ∧ st'.log.head? = some (methodLine (basename (getUniqueFilename st.fs fp))
            (cands.get ⟨k, hk⟩).tag)
        ∧ st'.fs = getUniqueFilename st.fs fp :: st.fs
        ∧ st'.failed = st.failed
        ∧ st'.attemptCount = st.attemptCount +
            (if (T (st.attemptCount + 2 * k)).isOk then 2 * k + 1 else 2 * k + 2) := by
  intro k
  induction k with
  | zero =>
    intro cands st hk hfail hsucc
    cases cands with
    | nil => simp at hk
    | cons c rest =>
      rcases hsucc with h | ⟨h0, h1⟩
      · have h' : T st.attemptCount = .resp 200 none := by simpa using h
        rw [tryCandidates, downloadWithRetry_ok_first T c.url fp v idx st h']
        dsimp only
        refine ⟨_, rfl, ?_, rfl, rfl, ?_⟩
        · simp [logMsg]
        · simp [logMsg, h', AttemptResult.isOk]
      · have h0' : (T st.attemptCount).isOk = false := by simpa using h0
        have h1' : T (st.attemptCount + 1) = .resp 200 none := by
          have e : st.attemptCount + 2 * 0 + 1 = st.attemptCount + 1 := by omega
          rw [e] at h1
          exact h1
        rw [tryCandidates, downloadWithRetry_ok_second T c.url fp v idx st h0' h1']
        dsimp only
        refine ⟨_, rfl, ?_, rfl, rfl, ?_⟩
        · simp [logMsg]
        · simp [logMsg, h0']
  | succ k ih =>
    intro cands st hk hfail hsucc
    cases cands with
    | nil => simp at hk
    | cons c rest =>
      have h0 : (T st.attemptCount).isOk = false := by
        have := hfail 0 (by omega)
        simpa using this
      have h1 : (T (st.attemptCount + 1)).isOk = false := by
        have := hfail 1 (by omega)
        simpa using this
      rw [tryCandidates, downloadWithRetry_fail T c.url fp v idx st h0 h1]
      dsimp only
      have hk' : k < rest.length := by simpa using Nat.lt_of_succ_lt_succ (by simpa using hk)
      obtain ⟨st', heq, hhead, hfs, hfailed, hcount⟩ := ih rest
        ⟨st.fs,
          finalFailLine c.url ::
            (attemptLogOf (T (st.attemptCount + 1)) 2 c.url ++
              (attemptLogOf (T st.attemptCount) 1 c.url ++ st.log)),
          st.failed, st.console, st.attemptCount + 2⟩
        hk'
        (by
          intro i hi
          have := hfail (2 + i) (by omega)
          have e : st.attemptCount + (2 + i) = st.attemptCount + 2 + i := by omega
          rw [e] at this
          simpa using this)
        (by
          have e : st.attemptCount + 2 + 2 * k = st.attemptCount + 2 * (k + 1) := by omega
          dsimp only
          rw [e]
          exact hsucc)
      refine ⟨st', ?_, ?_, ?_, ?_, ?_⟩
      · exact heq
      · simpa using hhead
      · simpa using hfs
      · simpa using hfailed
      · have e : st.attemptCount + 2 + 2 * k = st.attemptCount + 2 * (k + 1) := by omega
        rw [hcount]
        dsimp only
        rw [e]
        by_cases hok : (T (st.attemptCount + 2 * (k + 1))).isOk = true
        · rw [hok]
          simp
          omega
        · have hok' : (T (st.attemptCount + 2 * (k + 1))).isOk = false := by
            cases hcase : (T (st.attemptCount + 2 * (k + 1))).isOk
            · rfl
            · exact absurd hcase hok
          rw [hok']
          simp
          omega


/-! ### Console-print wrappers: the verbose banner and notices change only
the console component, so each executor/controller lemma transfers to a
state wrapped in the conditional print of `try_download`. -/

theorem downloadWithRetry_fail_console (T : Transport) (url fp : String) (v : Bool)
    (idx : Nat) (msg : String) (st : RunState)
    (h0 : (T st.attemptCount).isOk = false)
    (h1 : (T (st.attemptCount + 1)).isOk = false) :
    downloadWithRetry T url fp v idx (if v = true then consoleMsg st msg else st) =
      ((false, ""),
       ⟨st.fs,
        finalFailLine url ::
          (attemptLogOf (T (st.attemptCount + 1)) 2 url ++
            (attemptLogOf (T st.attemptCount) 1 url ++ st.log)),
        st.failed,
        (if v = true then msg :: st.console else st.console),
        st.attemptCount + 2⟩) := by
  cases v
  · exact downloadWithRetry_fail T url fp false idx st h0 h1
  · exact downloadWithRetry_fail T url fp true idx (consoleMsg st msg) h0 h1

theorem downloadWithRetry_ok_first_console (T : Transport) (url fp : String) (v : Bool)
    (idx : Nat) (msg : String) (st : RunState)
    (h : T st.attemptCount = .resp 200 none) :
    downloadWithRetry T url fp v idx (if v = true then consoleMsg st msg else st) =
      ((true, basename (getUniqueFilename st.fs fp)),
       ⟨getUniqueFilename st.fs fp :: st.fs,
        downloadedLine (getUniqueFilename st.fs fp) url :: st.log,
        st.failed,
        (if v = true then
          ("[" ++ Nat.repr (idx + 1) ++ "] ✓ " ++ basename (getUniqueFilename st.fs fp))
            :: msg :: st.console
         else st.console),
        st.attemptCount + 1⟩) := by
  cases v
  · exact downloadWithRetry_ok_first T url fp false idx st h
  · exact downloadWithRetry_ok_first T url fp true idx (consoleMsg st msg) h

theorem downloadWithRetry_ok_second_console (T : Transport) (url fp : String) (v : Bool)
    (idx : Nat) (msg : String) (st : RunState)
    (h0 : (T st.attemptCount).isOk = false)
    (h1 : T (st.attemptCount + 1) = .resp 200 none) :
    downloadWithRetry T url fp v idx (if v = true then consoleMsg st msg else st) =
      ((true, basename (getUniqueFilename st.fs fp)),
       ⟨getUniqueFilename st.fs fp :: st.fs,
        downloadedLine (getUniqueFilename st.fs fp) url ::
          (attemptLogOf (T st.attemptCount) 1 url ++ st.log),
        st.failed,
        (if v = true then
          ("[" ++ Nat.repr (idx + 1) ++ "] ✓ " ++ basename (getUniqueFilename st.fs fp))
            :: msg :: st.console
         else st.console),
        st.attemptCount + 2⟩) := by
  cases v
  · exact downloadWithRetry_ok_second T url fp false idx st h0 h1
  · exact downloadWithRetry_ok_second T url fp true idx (consoleMsg st msg) h0 h1

theorem tryCandidates_all_fail_console (T : Transport) (fnB fp : String)
    (p m f idx : Nat) (v : Bool) (cands : List Candidate) (msg : String) (st : RunState)
    (hfail : ∀ i, i < 2 * cands.length → (T (st.attemptCount + i)).isOk = false) :
    ∃ L : List String,
      tryCandidates T fnB fp p m f idx v cands (if v = true then consoleMsg st msg else st) =
        ((fnB, false),
         ⟨st.fs,
          (allFailedLine fnB :: L) ++ st.log,
          failedEntry p m f :: st.failed,
          (if v = true then
            ("[" ++ Nat.repr (idx + 1) ++ "] × " ++ fnB ++ ": All methods failed.")
              :: msg :: st.console
           else st.console),
          st.attemptCount + 2 * cands.length⟩) := by
  cases v
  · exact tryCandidates_all_fail T fnB fp p m f idx false cands st hfail
  · exact tryCandidates_all_fail T fnB fp p m f idx true cands (consoleMsg st msg) hfail

theorem tryCandidates_success_at_console (T : Transport) (fnB fp : String)
    (p m f idx : Nat) (v : Bool) (k : Nat) (cands : List Candidate) (msg : String)
    (st : RunState) (hk : k < cands.length)
    (hfail : ∀ i, i < 2 * k → (T (st.attemptCount + i)).isOk = false)
    (hsucc : T (st.attemptCount + 2 * k) = .resp 200 none ∨
      ((T (st.attemptCount + 2 * k)).isOk = false ∧
        T (st.attemptCount + 2 * k + 1) = .resp 200 none)) :
    ∃ st' : RunState,
      tryCandidates T fnB fp p m f idx v cands (if v = true then consoleMsg st msg else st) =
        ((basename (getUniqueFilename st.fs fp), true), st')
      ∧ st'.log.head? = some (methodLine (basename (getUniqueFilename st.fs fp))
          (cands.get ⟨k, hk⟩).tag)
      ∧ st'.fs = getUniqueFilename st.fs fp :: st.fs
      ∧ st'.failed = st.failed
      ∧ st'.attemptCount = st.attemptCount +
          (if (T (st.attemptCount + 2 * k)).isOk then 2 * k + 1 else 2 * k + 2) := by
  cases v
  · exact tryCandidates_success_at T fnB fp p m f idx false k cands st hk hfail hsucc
  · exact tryCandidates_success_at T fnB fp p m f idx true k cands (consoleMsg st msg) hk
      hfail hsucc


/-- C1: for every target, `try_download` tries the candidates strictly in
generator order and stops at the first candidate for which
`download_with_retry` returns success: if every attempt before candidate `k`
fails and candidate `k` succeeds (on its first or second attempt), the call
returns success, the newest log line carries candidate `k`'s method tag, the
failed list is untouched, and the attempt counter shows that no attempt
beyond the successful one was made. -/
theorem resolve_stops_at_first_success
    (T : Transport) (dir : String) (p m f idx : Nat) (v : Bool) (st : RunState)
    (k : Nat) (hk : k < (candidates p m f).length)
    (hfail : ∀ i, i < 2 * k → (T (st.attemptCount + i)).isOk = false)
    (hsucc : T (st.attemptCount + 2 * k) = .resp 200 none ∨
      ((T (st.attemptCount + 2 * k)).isOk = false ∧
        T (st.attemptCount + 2 * k + 1) = .resp 200 none)) :
    ∃ st' : RunState,
      tryDownload T dir p m f idx v st =
        ((basename (getUniqueFilename st.fs (dir ++ "/" ++ filenameBase p m f)), true), st')
      ∧ st'.log.head? = some (methodLine
          (basename (getUniqueFilename st.fs (dir ++ "/" ++ filenameBase p m f)))
          ((candidates p m f).get ⟨k, hk⟩).tag)
      ∧ st'.fs = getUniqueFilename st.fs (dir ++ "/" ++ filenameBase p m f) :: st.fs
      ∧ st'.failed = st.failed
      ∧ st'.attemptCount = st.attemptCount +
          (if (T (st.attemptCount + 2 * k)).isOk then 2 * k + 1 else 2 * k + 2) := by
  unfold tryDownload
  dsimp only
  cases k with
  | zero =>
    rcases hsucc with h | ⟨h0, h1⟩
    · have h' : T st.attemptCount = .resp 200 none := by simpa using h
      rw [downloadWithRetry_ok_first_console T (priorityUrl p m f)
        (dir ++ "/" ++ filenameBase p m f) v idx
        ("[" ++ Nat.repr (idx + 1) ++ "] Starting download...") st h']
      dsimp only
      refine ⟨_, rfl, ?_, ?_, ?_, ?_⟩
      · simp [logMsg, candidates]
      · simp [logMsg]
      · simp [logMsg]
      · simp [logMsg, h', AttemptResult.isOk]
    · have h0' : (T st.attemptCount).isOk = false := by simpa using h0
      have h1' : T (st.attemptCount + 1) = .resp 200 none := by
        have e : st.attemptCount + 2 * 0 + 1 = st.attemptCount + 1 := by omega
        rw [e] at h1
        exact h1
      rw [downloadWithRetry_ok_second_console T (priorityUrl p m f)
        (dir ++ "/" ++ filenameBase p m f) v idx
        ("[" ++ Nat.repr (idx + 1) ++ "] Starting download...") st h0' h1']
      dsimp only
      refine ⟨_, rfl, ?_, ?_, ?_, ?_⟩
      · simp [logMsg, candidates]
      · simp [logMsg]
      · simp [logMsg]
      · simp [logMsg, h0']
  | succ k =>
    have h0 : (T st.attemptCount).isOk = false := by simpa using hfail 0 (by omega)
    have h1 : (T (st.attemptCount + 1)).isOk = false := by simpa using hfail 1 (by omega)
    rw [downloadWithRetry_fail_console T (priorityUrl p m f)
      (dir ++ "/" ++ filenameBase p m f) v idx
      ("[" ++ Nat.repr (idx + 1) ++ "] Starting download...") st h0 h1]
    dsimp only
    obtain ⟨st', heq, hhead, hfs, hfailed, hcount⟩ :=
      tryCandidates_success_at_console T (filenameBase p m f)
        (dir ++ "/" ++ filenameBase p m f) p m f idx v k (fallbackCandidates p m f)
        ("[" ++ Nat.repr (idx + 1) ++ "] Priority DR16 Lite SAS failed. Trying fallback methods...")
        ⟨st.fs,
          finalFailLine (priorityUrl p m f) ::
            (attemptLogOf (T (st.attemptCount + 1)) 2 (priorityUrl p m f) ++
              (attemptLogOf (T st.attemptCount) 1 (priorityUrl p m f) ++ st.log)),
          st.failed,
          (if v = true then
            ("[" ++ Nat.repr (idx + 1) ++ "] Starting download...") :: st.console
           else st.console),
          st.attemptCount + 2⟩
        (by
          rw [fallbackCandidates_length]
          have hk48 := hk
          rw [candidates_length] at hk48
          omega)
        (by
          intro i hi
          dsimp only
          have := hfail (2 + i) (by omega)
          have e : st.attemptCount + (2 + i) = st.attemptCount + 2 + i := by omega
          rw [e] at this
          exact this)
        (by
          dsimp only
          have e : st.attemptCount + 2 + 2 * k = st.attemptCount + 2 * (k + 1) := by omega
          rw [e]
          exact hsucc)
    rw [heq]
    refine ⟨st', rfl, ?_, ?_, ?_, ?_⟩
    · exact hhead
    · exact hfs
    · exact hfailed
    · rw [hcount]
      dsimp only
      have e : st.attemptCount + 2 + 2 * k = st.attemptCount + 2 * (k + 1) := by omega
      rw [e]
      by_cases hok : (T (st.attemptCount + 2 * (k + 1))).isOk = true
      · rw [hok]
        simp
        omega
      · have hok' : (T (st.attemptCount + 2 * (k + 1))).isOk = false := by
          cases hcase : (T (st.attemptCount + 2 * (k + 1))).isOk
          · rfl
          · exact absurd hcase hok
        rw [hok']
        simp
        omega


theorem filenameBase_head (p m f : Nat) :
    ∃ rest : List Char, (filenameBase p m f).data = 's' :: rest := ⟨_, rfl⟩

theorem filenameBase_ne_empty (p m f : Nat) : filenameBase p m f ≠ "" := by
  intro h
  obtain ⟨rest, hr⟩ := filenameBase_head p m f
  rw [h] at hr
  simp at hr

/-- C3: on a transport that never succeeds, `try_download` makes exactly two
attempts for every one of its candidates (2 × N attempts for the N = 48
candidates), returns the failure outcome, appends the target exactly once to
the failed list, and writes no file. -/
theorem retry_budget_two_per_candidate
    (T : Transport) (dir : String) (p m f idx : Nat) (v : Bool) (st : RunState)
    (hfail : ∀ i, (T i).isOk = false) :
    ∃ st' : RunState,
      tryDownload T dir p m f idx v st = ((filenameBase p m f, false), st')
      ∧ st'.attemptCount = st.attemptCount + 2 * (candidates p m f).length
      ∧ st'.failed = failedEntry p m f :: st.failed
      ∧ st'.fs = st.fs := by
  unfold tryDownload
  dsimp only
  rw [downloadWithRetry_fail_console T (priorityUrl p m f)
    (dir ++ "/" ++ filenameBase p m f) v idx
    ("[" ++ Nat.repr (idx + 1) ++ "] Starting download...") st (hfail _) (hfail _)]
  dsimp only
  obtain ⟨L, hL⟩ :=
    tryCandidates_all_fail_console T (filenameBase p m f)
      (dir ++ "/" ++ filenameBase p m f) p m f idx v (fallbackCandidates p m f)
      ("[" ++ Nat.repr (idx + 1) ++ "] Priority DR16 Lite SAS failed. Trying fallback methods...")
      ⟨st.fs,
        finalFailLine (priorityUrl p m f) ::
          (attemptLogOf (T (st.attemptCount + 1)) 2 (priorityUrl p m f) ++
            (attemptLogOf (T st.attemptCount) 1 (priorityUrl p m f) ++ st.log)),
        st.failed,
        (if v = true then
          ("[" ++ Nat.repr (idx + 1) ++ "] Starting download...") :: st.console
         else st.console),
        st.attemptCount + 2⟩
      (fun i _ => hfail _)
  rw [hL]
  refine ⟨_, rfl, ?_, rfl, rfl⟩
  dsimp only
  rw [fallbackCandidates_length, candidates_length]

/-- C2 (amended): if every candidate is exhausted without success,
`try_download` appends the target to the persisted failed list, logs the
final failure line as its newest log entry, and returns a failure outcome
whose name field carries the intended base filename — a non-empty string,
not a null/empty name. -/
theorem exhaustion_outcome
    (T : Transport) (dir : String) (p m f idx : Nat) (v : Bool) (st : RunState)
    (hfail : ∀ i, (T i).isOk = false) :
    ∃ st' : RunState,
      tryDownload T dir p m f idx v st = ((filenameBase p m f, false), st')
      ∧ st'.log.head? = some (allFailedLine (filenameBase p m f))
      ∧ st'.failed = failedEntry p m f :: st.failed
      ∧ filenameBase p m f ≠ "" := by
  unfold tryDownload
  dsimp only
  rw [downloadWithRetry_fail_console T (priorityUrl p m f)
    (dir ++ "/" ++ filenameBase p m f) v idx
    ("[" ++ Nat.repr (idx + 1) ++ "] Starting download...") st (hfail _) (hfail _)]
  dsimp only
  obtain ⟨L, hL⟩ :=
    tryCandidates_all_fail_console T (filenameBase p m f)
      (dir ++ "/" ++ filenameBase p m f) p m f idx v (fallbackCandidates p m f)
      ("[" ++ Nat.repr (idx + 1) ++ "] Priority DR16 Lite SAS failed. Trying fallback methods...")
      ⟨st.fs,
        finalFailLine (priorityUrl p m f) ::
          (attemptLogOf (T (st.attemptCount + 1)) 2 (priorityUrl p m f) ++
            (attemptLogOf (T st.attemptCount) 1 (priorityUrl p m f) ++ st.log)),
        st.failed,
        (if v = true then
          ("[" ++ Nat.repr (idx + 1) ++ "] Starting download...") :: st.console
         else st.console),
        st.attemptCount + 2⟩
      (fun i _ => hfail _)
  rw [hL]
  refine ⟨_, rfl, ?_, rfl, filenameBase_ne_empty p m f⟩
  simp

set_option maxRecDepth 65536 in
/-- C2 fails as stated: at the concrete target (751, 52251, 160) with a
transport that always raises, the failure outcome of `try_download` carries
the base filename — not a null or empty name. -/
theorem exhaustion_filename_counterexample :
    (tryDownload (fun _ => AttemptResult.exc ("connection error")) ("spectra")
        751 52251 160 0 false initState).1 =
      ("spec-0751-52251-00160.fits", false)
  ∧ ("spec-0751-52251-00160.fits" : String) ≠ "" := by
  refine ⟨?_, by decide⟩
  rfl

set_option maxRecDepth 65536 in
/-- Witness for C1: a transport failing the first two candidates (attempts
0 to 3) and succeeding on the third candidate's first attempt (attempt 4). -/
theorem resolve_stops_at_first_success_witness :
    ∃ st' : RunState,
      tryDownload (fun n => if n = 4 then AttemptResult.resp 200 none
          else AttemptResult.exc ("timeout")) ("spectra") 751 52251 160 0 false initState =
        (("spec-0751-52251-00160.fits", true), st')
      ∧ st'.log.head? = some (methodLine ("spec-0751-52251-00160.fits")
          ("dr16 sdss.org run2d=103"))
      ∧ st'.fs = ["spectra/spec-0751-52251-00160.fits"]
      ∧ st'.failed = []
      ∧ st'.attemptCount = 5 := by
  obtain ⟨st', h1, h2, h3, h4, h5⟩ :=
    resolve_stops_at_first_success
      (fun n => if n = 4 then AttemptResult.resp 200 none else AttemptResult.exc ("timeout"))
      ("spectra") 751 52251 160 0 false initState 2 (by decide)
      (by decide) (Or.inl (by decide))
  exact ⟨st', h1, h2, h3, h4, h5⟩

set_option maxRecDepth 65536 in
/-- Witness for C3: an always-failing transport at target (752, 52251, 160)
produces 96 = 2 × 48 attempts and one failed-list entry. -/
theorem retry_budget_witness :
    ∃ st' : RunState,
      tryDownload (fun _ => AttemptResult.exc ("down")) ("spectra") 752 52251 160 0 false
          initState =
        (("spec-0752-52251-00160.fits", false), st')
      ∧ st'.attemptCount = 96
      ∧ st'.failed = ["752\t52251\t160"]
      ∧ st'.fs = [] := by
  obtain ⟨st', h1, h2, h3, h4⟩ :=
    retry_budget_two_per_candidate (fun _ => AttemptResult.exc ("down")) ("spectra")
      752 52251 160 0 false initState (fun _ => rfl)
  exact ⟨st', h1, h2, h3, h4⟩

set_option maxRecDepth 65536 in
/-- Witness for the amended C2 at target (753, 52251, 160). -/
theorem exhaustion_outcome_witness :
    ∃ st' : RunState,
      tryDownload (fun _ => AttemptResult.exc ("refused")) ("spectra") 753 52251 160 0 false
          initState =
        (("spec-0753-52251-00160.fits", false), st')
      ∧ st'.log.head? = some (allFailedLine ("spec-0753-52251-00160.fits"))
      ∧ st'.failed = ["753\t52251\t160"]
      ∧ ("spec-0753-52251-00160.fits" : String) ≠ "" := by
  obtain ⟨st', h1, h2, h3, h4⟩ :=
    exhaustion_outcome (fun _ => AttemptResult.exc ("refused")) ("spectra")
      753 52251 160 0 false initState (fun _ => rfl)
  exact ⟨st', h1, h2, h3, h4⟩


/-! ### Attempt logging and the handling of write failures -/

/-- C7 fails as stated: on a transport answering HTTP 404 to both attempts,
`download_with_retry` makes its two failed attempts yet writes no
attempt-numbered log line at all — its only log output is the single
final-failure line, which carries no attempt number or error detail. -/
theorem status_failure_not_logged :
    (downloadWithRetry (fun _ => AttemptResult.resp 404 none) ("https://x")
        ("spectra/f.fits") false 0 initState).2.log = [finalFailLine ("https://x")]
  ∧ (downloadWithRetry (fun _ => AttemptResult.resp 404 none) ("https://x")
        ("spectra/f.fits") false 0 initState).2.attemptCount = 2 := ⟨rfl, rfl⟩

/-- C7 (amended): a failed attempt of `download_with_retry` produces an
attempt-numbered audit line exactly when the attempt raised an exception
(transport error, or write error on a 200 response): the log delta of a
fully failing call consists of the final-failure line over the per-attempt
lines, where an exception contributes its numbered line and a non-success
HTTP status contributes nothing. -/
theorem attempt_logging_on_exception
    (T : Transport) (url fp : String) (v : Bool) (idx : Nat) (st : RunState)
    (h0 : (T st.attemptCount).isOk = false)
    (h1 : (T (st.attemptCount + 1)).isOk = false) :
    (downloadWithRetry T url fp v idx st).2.log =
      finalFailLine url ::
        (attemptLogOf (T (st.attemptCount + 1)) 2 url ++
          (attemptLogOf (T st.attemptCount) 1 url ++ st.log))
    ∧ (∀ e n, attemptLogOf (AttemptResult.exc e) n url = [attemptFailLine url n e])
    ∧ (∀ e n, attemptLogOf (AttemptResult.resp 200 (some e)) n url =
        [attemptFailLine url n e])
    ∧ (∀ code n, code ≠ 200 → attemptLogOf (AttemptResult.resp code none) n url = []) := by
  refine ⟨?_, fun e n => rfl, fun e n => rfl, fun code n hc => ?_⟩
  · rw [downloadWithRetry_fail T url fp v idx st h0 h1]
  · simp [attemptLogOf, hc]

/-- Witness for the amended C7: attempt 1 fails with a 500 status (no log
line), attempt 2 with a raised exception (one numbered line). -/
theorem attempt_logging_on_exception_witness :
    (downloadWithRetry (fun n => if n = 0 then AttemptResult.resp 500 none
        else AttemptResult.exc ("boom")) ("https://y") ("spectra/g.fits")
        false 0 initState).2.log =
      [finalFailLine ("https://y"), attemptFailLine ("https://y") 2 ("boom")] :=
  (attempt_logging_on_exception
    (fun n => if n = 0 then AttemptResult.resp 500 none else AttemptResult.exc ("boom"))
    ("https://y") ("spectra/g.fits") false 0 initState (by decide) (by decide)).1

set_option maxRecDepth 65536 in
/-- C8 fails as stated: a local write failure (200 response whose payload
write raises) is indistinguishable from a network exception with the same
message — the whole `download_with_retry` call is equal state-for-state, so
the write failure is retried (2 attempts) and logged in the identical
format; and `try_download` then walks all remaining candidates (96 attempts
in total) instead of aborting the target's resolution. -/
theorem write_failure_same_as_network :
    downloadWithRetry (fun _ => AttemptResult.resp 200 (some ("Permission denied")))
        ("https://z") ("spectra/h.fits") false 0 initState =
      downloadWithRetry (fun _ => AttemptResult.exc ("Permission denied"))
        ("https://z") ("spectra/h.fits") false 0 initState
  ∧ (downloadWithRetry (fun _ => AttemptResult.resp 200 (some ("Permission denied")))
        ("https://z") ("spectra/h.fits") false 0 initState).2.attemptCount = 2
  ∧ (tryDownload (fun _ => AttemptResult.resp 200 (some ("Permission denied"))) ("spectra")
        751 52251 160 0 false initState).2.attemptCount = 96 := ⟨rfl, rfl, rfl⟩

theorem attemptOnce_mask (T T' : Transport) (url fp : String) (v : Bool) (idx att : Nat)
    (st : RunState) (h : T' st.attemptCount = maskWriteExc (T st.attemptCount)) :
    attemptOnce T' url fp v idx att st = attemptOnce T url fp v idx att st := by
  cases hT : T st.attemptCount with
  | resp code wf =>
    by_cases hc : code = 200
    · subst hc
      cases wf with
      | none => simp [attemptOnce, h, hT, maskWriteExc]
      | some e => simp [attemptOnce, h, hT, maskWriteExc]
    · simp [attemptOnce, h, hT, maskWriteExc, hc]
  | exc e => simp [attemptOnce, h, hT, maskWriteExc]

theorem downloadWithRetry_mask (T T' : Transport) (url fp : String) (v : Bool) (idx : Nat)
    (st : RunState) (h : ∀ n, T' n = maskWriteExc (T n)) :
    downloadWithRetry T' url fp v idx st = downloadWithRetry T url fp v idx st := by
  rw [downloadWithRetry, downloadWithRetry,
    attemptOnce_mask T T' url fp v idx 0 st (h st.attemptCount)]
  cases hA : attemptOnce T url fp v idx 0 st with
  | mk o st1 =>
    cases o with
    | some name => rfl
    | none =>
      dsimp only
      rw [attemptOnce_mask T T' url fp v idx 1 st1 (h st1.attemptCount)]

theorem tryCandidates_mask (T T' : Transport) (fnB fp : String) (p m f idx : Nat) (v : Bool)
    (h : ∀ n, T' n = maskWriteExc (T n)) :
    ∀ (cands : List Candidate) (st : RunState),
      tryCandidates T' fnB fp p m f idx v cands st =
        tryCandidates T fnB fp p m f idx v cands st := by
  intro cands
  induction cands with
  | nil => intro st; rfl
  | cons c rest ih =>
    intro st
    rw [tryCandidates, tryCandidates, downloadWithRetry_mask T T' c.url fp v idx st h]
    cases hA : downloadWithRetry T c.url fp v idx st with
    | mk r st1 =>
      cases r with
      | mk ok name =>
        cases ok with
        | true => rfl
        | false =>
          dsimp only
          exact ih st1

/-- C8 (amended): a local filesystem failure while persisting the payload is
caught by the same per-attempt except clause as a network error: replacing
every write failure by a network exception with the same message (the
`maskWriteExc` transform) leaves both `download_with_retry` and the whole of
`try_download` literally unchanged — the write failure counts against the
same 2-attempt budget, is logged in the same format, and resolution
continues with the remaining candidates rather than aborting. -/
theorem write_failure_handled_as_network
    (T T' : Transport) (dir url fp : String) (p m f idx : Nat) (v : Bool) (st : RunState)
    (h : ∀ n, T' n = maskWriteExc (T n)) :
    downloadWithRetry T' url fp v idx st = downloadWithRetry T url fp v idx st
  ∧ tryDownload T' dir p m f idx v st = tryDownload T dir p m f idx v st := by
  refine ⟨downloadWithRetry_mask T T' url fp v idx st h, ?_⟩
  unfold tryDownload
  dsimp only
  rw [downloadWithRetry_mask T T' (priorityUrl p m f) (dir ++ "/" ++ filenameBase p m f)
    v idx _ h]
  cases hA : downloadWithRetry T (priorityUrl p m f) (dir ++ "/" ++ filenameBase p m f) v idx
      (if v = true then
        consoleMsg st ("[" ++ Nat.repr (idx + 1) ++ "] Starting download...")
      else st) with
  | mk r st1 =>
    cases r with
    | mk ok name =>
      cases ok with
      | true => rfl
      | false =>
        dsimp only
        rw [tryCandidates_mask T T' (filenameBase p m f) (dir ++ "/" ++ filenameBase p m f)
          p m f idx v h]

/-- Witness for the amended C8: the all-write-failure transport versus the
all-network-failure transport with the same message. -/
theorem write_failure_handled_witness :
    downloadWithRetry (fun _ => AttemptResult.exc ("disk full")) ("https://w")
        ("spectra/k.fits") false 0 initState =
      downloadWithRetry (fun _ => AttemptResult.resp 200 (some ("disk full"))) ("https://w")
        ("spectra/k.fits") false 0 initState
  ∧ tryDownload (fun _ => AttemptResult.exc ("disk full")) ("spectra") 754 52251 160 0 false
        initState =
      tryDownload (fun _ => AttemptResult.resp 200 (some ("disk full"))) ("spectra")
        754 52251 160 0 false initState :=
  write_failure_handled_as_network
    (fun _ => AttemptResult.resp 200 (some ("disk full")))
    (fun _ => AttemptResult.exc ("disk full"))
    ("spectra") ("https://w") ("spectra/k.fits") 754 52251 160 0 false initState
    (fun _ => rfl)


/-! ### The scheduler: zip truncation and outcome tallies -/

theorem zip3_take (plates : List Nat) :
    ∀ (mjds fibers : List Nat),
      zip3 plates mjds fibers =
        zip3 (plates.take (min plates.length (min mjds.length fibers.length)))
          (mjds.take (min plates.length (min mjds.length fibers.length)))
          (fibers.take (min plates.length (min mjds.length fibers.length))) := by
  induction plates with
  | nil => intro mjds fibers; simp [zip3]
  | cons p ps ih =>
    intro mjds fibers
    cases mjds with
    | nil => simp [zip3]
    | cons m ms =>
      cases fibers with
      | nil => simp [zip3]
      | cons f fs =>
        simp only [List.length_cons, Nat.succ_min_succ, List.take_succ_cons]
        simp only [zip3, List.zip_cons_cons] at ih ⊢
        rw [ih ms fs]

theorem downloadAllResults_go_length (T : Transport) (dir : String) (v : Bool) :
    ∀ (l : List (Nat × Nat × Nat)) (i : Nat) (st : RunState),
      (downloadAllResults.go T dir v l i st).1.length = l.length := by
  intro l
  induction l with
  | nil => intro i st; rfl
  | cons t rest ih =>
    intro i st
    cases t with
    | mk p mf =>
      cases mf with
      | mk m f => simp [downloadAllResults.go, ih]

theorem countP_add_countP_not (p : (String × Bool) → Bool) :
    ∀ l : List (String × Bool),
      (l.filter p).length + (l.filter (fun r => ! p r)).length = l.length := by
  intro l
  induction l with
  | nil => rfl
  | cons a l ih =>
    cases hp : p a <;> simp [List.filter_cons, hp, ← ih] <;> omega

/-- C10: `download_all` on plate/mjd/fiber lists of unequal lengths behaves
exactly as on the three lists truncated to the shortest length — the whole
runs are equal, so no outcome, log line, or failed-list entry is produced
for the surplus entries — and it resolves exactly that many targets. -/
theorem unequal_lists_truncate
    (T : Transport) (dir : String) (plates mjds fibers : List Nat) (v : Bool)
    (st : RunState) :
    downloadAllResults T dir plates mjds fibers v st =
      downloadAllResults T dir
        (plates.take (min plates.length (min mjds.length fibers.length)))
        (mjds.take (min plates.length (min mjds.length fibers.length)))
        (fibers.take (min plates.length (min mjds.length fibers.length))) v st
  ∧ (downloadAllResults T dir plates mjds fibers v st).1.length =
      min plates.length (min mjds.length fibers.length)
  ∧ downloadAll T dir plates mjds fibers v st =
      downloadAll T dir
        (plates.take (min plates.length (min mjds.length fibers.length)))
        (mjds.take (min plates.length (min mjds.length fibers.length)))
        (fibers.take (min plates.length (min mjds.length fibers.length))) v st := by
  have hres : downloadAllResults T dir plates mjds fibers v st =
      downloadAllResults T dir
        (plates.take (min plates.length (min mjds.length fibers.length)))
        (mjds.take (min plates.length (min mjds.length fibers.length)))
        (fibers.take (min plates.length (min mjds.length fibers.length))) v st := by
    unfold downloadAllResults
    rw [← zip3_take]
  refine ⟨hres, ?_, ?_⟩
  · unfold downloadAllResults
    rw [downloadAllResults_go_length]
    simp [zip3]
  · unfold downloadAll downloadAllResults
    rw [← zip3_take]

/-- C4 (amended): `download_all` materializes one terminal outcome per
target of an equal-length batch of size K and waits for all of them; the
tally over that internal outcome list satisfies succeeded + failed = K.  The
source then discards the list (the function returns None), so the counts
never leave `download_all`. -/
theorem batch_outcomes_tally
    (T : Transport) (dir : String) (plates mjds fibers : List Nat) (v : Bool)
    (st : RunState) (K : Nat)
    (hp : plates.length = K) (hm : mjds.length = K) (hf : fibers.length = K) :
    (downloadAllResults T dir plates mjds fibers v st).1.length = K
  ∧ ((downloadAllResults T dir plates mjds fibers v st).1.filter (fun r => r.2)).length
      + ((downloadAllResults T dir plates mjds fibers v st).1.filter (fun r => ! r.2)).length
      = K := by
  have hlen : (downloadAllResults T dir plates mjds fibers v st).1.length = K := by
    unfold downloadAllResults
    rw [downloadAllResults_go_length]
    simp [zip3, hp, hm, hf]
  refine ⟨hlen, ?_⟩
  rw [countP_add_countP_not (fun r => r.2)]
  exact hlen

set_option maxRecDepth 65536 in
/-- C4 fails as stated: two one-target batches with opposite outcomes — a
transport that succeeds at once against one that always fails — leave
`download_all` with identical run-level console output (start, end, duration
only), while the internal outcome lists differ; the outcome tally is never
surfaced, because the source discards the outcome list and returns None. -/
theorem run_summary_counterexample :
    (downloadAllResults (fun _ => AttemptResult.resp 200 none) ("spectra") [751] [52251]
        [160] false initState).1 = [("spec-0751-52251-00160.fits", true)]
  ∧ (downloadAllResults (fun _ => AttemptResult.exc ("down")) ("spectra") [751] [52251]
        [160] false initState).1 = [("spec-0751-52251-00160.fits", false)]
  ∧ (downloadAll (fun _ => AttemptResult.resp 200 none) ("spectra") [751] [52251] [160]
        false initState).console =
      (downloadAll (fun _ => AttemptResult.exc ("down")) ("spectra") [751] [52251] [160]
        false initState).console := ⟨rfl, rfl, rfl⟩

set_option maxRecDepth 65536 in
/-- Witness for the amended C4 on a two-target batch with an immediately
succeeding transport. -/
theorem batch_outcomes_tally_witness :
    (downloadAllResults (fun _ => AttemptResult.resp 200 none) ("spectra") [751, 752]
        [52251, 52252] [160, 161] false initState).1.length = 2
  ∧ ((downloadAllResults (fun _ => AttemptResult.resp 200 none) ("spectra") [751, 752]
        [52251, 52252] [160, 161] false initState).1.filter (fun r => r.2)).length
      + ((downloadAllResults (fun _ => AttemptResult.resp 200 none) ("spectra") [751, 752]
        [52251, 52252] [160, 161] false initState).1.filter (fun r => ! r.2)).length
      = 2 := by
  obtain ⟨h1, h2⟩ := batch_outcomes_tally (fun _ => AttemptResult.resp 200 none) ("spectra")
    [751, 752] [52251, 52252] [160, 161] false initState 2 rfl rfl rfl
  exact ⟨h1, h2⟩


/-! ### Collision-safe filenames -/

theorem rfindAux_cons (x : Char) (t : List Char) (c : Char) (i : Nat) (acc : Option Nat) :
    rfindAux (x :: t) c i acc = rfindAux t c (i + 1) (if x = c then some i else acc) := rfl

theorem rfindAux_append (c : Char) :
    ∀ (l1 l2 : List Char) (i : Nat) (acc : Option Nat),
      rfindAux (l1 ++ l2) c i acc = rfindAux l2 c (i + l1.length) (rfindAux l1 c i acc) := by
  intro l1
  induction l1 with
  | nil => intro l2 i acc; simp [rfindAux]
  | cons x xs ih =>
    intro l2 i acc
    rw [List.cons_append, rfindAux_cons, rfindAux_cons, ih l2 (i + 1)]
    have e : i + (x :: xs).length = i + 1 + xs.length := by
      rw [List.length_cons]
      omega
    rw [e]

theorem rfindAux_not_mem (c : Char) :
    ∀ (l : List Char) (i : Nat) (acc : Option Nat), c ∉ l → rfindAux l c i acc = acc := by
  intro l
  induction l with
  | nil => intro i acc h; rfl
  | cons x xs ih =>
    intro i acc h
    have hx : ¬ x = c := fun he => h (by rw [he]; exact List.mem_cons_self _ _)
    simp only [rfindAux, if_neg hx]
    exact ih (i + 1) acc (fun hm => h (List.mem_cons_of_mem _ hm))

theorem rfindAux_fits (i : Nat) (acc : Option Nat) :
    rfindAux ((".fits").data) ('.') i acc = some i := by
  show rfindAux ['.', 'f', 'i', 't', 's'] '.' i acc = some i
  simp only [rfindAux]
  rw [if_neg (by decide), if_neg (by decide), if_neg (by decide), if_neg (by decide),
    if_pos trivial]

theorem rfindAux_fits_slash (i : Nat) (acc : Option Nat) :
    rfindAux ((".fits").data) ('/') i acc = acc :=
  rfindAux_not_mem ('/') _ i acc (by decide)

theorem takeWhile_append_all (p : Char → Bool) :
    ∀ (l1 l2 : List Char), (∀ x ∈ l1, p x = true) →
      (l1 ++ l2).takeWhile p = l1 ++ l2.takeWhile p := by
  intro l1
  induction l1 with
  | nil => intro l2 h; rfl
  | cons x xs ih =>
    intro l2 h
    have hx : p x = true := h x (List.mem_cons_self _ _)
    simp only [List.cons_append, List.takeWhile_cons, hx, if_pos]
    rw [ih l2 (fun y hy => h y (List.mem_cons_of_mem _ hy))]

/-- The basename of a path assembled from the fixed output directory and a
slash-free filename is that filename. -/
theorem basename_under_dir (s : String) (hs : '/' ∉ s.data) :
    basename ("spectra/" ++ s) = s := by
  unfold basename
  rw [String.data_append, List.reverse_append]
  rw [takeWhile_append_all _ _ _
    (fun x hx => by
      have hxs : x ∈ s.data := List.mem_reverse.mp hx
      have : ¬ x = '/' := fun he => hs (he ▸ hxs)
      simpa using this)]
  have hsp : (("spectra/").data.reverse.takeWhile (fun c => c ≠ '/')) = [] := rfl
  rw [hsp, List.append_nil, List.reverse_reverse]

theorem suffixed_inj (base ext : String) (a b : Nat)
    (h : suffixed base ext a = suffixed base ext b) : a = b := by
  have hd := congrArg String.data h
  simp only [suffixed, String.data_append] at hd
  have h1 := List.append_cancel_right hd
  have h2 := List.append_cancel_left h1
  exact repr_injective (String.ext h2)

theorem uniqueFrom_spec (fs : List String) (base ext : String) :
    ∀ (fuel counter : Nat),
      (∃ j, j < fuel ∧ suffixed base ext (counter + j) ∉ fs) →
      ∃ k, counter ≤ k
        ∧ uniqueFrom fs base ext counter fuel = suffixed base ext k
        ∧ suffixed base ext k ∉ fs
        ∧ ∀ j, counter ≤ j → j < k → suffixed base ext j ∈ fs := by
  intro fuel
  induction fuel with
  | zero =>
    intro counter h
    obtain ⟨j, hj, _⟩ := h
    omega
  | succ fuel ih =>
    intro counter h
    obtain ⟨j, hj, hfree⟩ := h
    by_cases hc : suffixed base ext counter ∈ fs
    · have hex : ∃ j, j < fuel ∧ suffixed base ext (counter + 1 + j) ∉ fs := by
        cases j with
        | zero =>
          exfalso
          apply hfree
          simpa using hc
        | succ j =>
          refine ⟨j, by omega, ?_⟩
          have e : counter + (j + 1) = counter + 1 + j := by omega
          rw [e] at hfree
          exact hfree
      obtain ⟨k, hk1, hk2, hk3, hk4⟩ := ih (counter + 1) hex
      refine ⟨k, by omega, ?_, hk3, ?_⟩
      · rw [uniqueFrom, if_pos hc]
        exact hk2
      · intro i hi1 hi2
        by_cases hi0 : i = counter
        · rw [hi0]; exact hc
        · exact hk4 i (by omega) hi2
    · refine ⟨counter, Nat.le_refl _, ?_, hc, ?_⟩
      · rw [uniqueFrom, if_neg hc]
      · intro i hi1 hi2
        omega

theorem exists_free_suffixed (fs : List String) (base ext : String) :
    ∃ j, j < fs.length + 1 ∧ suffixed base ext (2 + j) ∉ fs := by
  by_contra hno
  push_neg at hno
  have hsub : ((List.range (fs.length + 1)).map (fun j => suffixed base ext (2 + j))) ⊆ fs := by
    intro x hx
    simp only [List.mem_map, List.mem_range] at hx
    obtain ⟨j, hj, rfl⟩ := hx
    exact hno j hj
  have hnodup : ((List.range (fs.length + 1)).map (fun j => suffixed base ext (2 + j))).Nodup := by
    refine List.Nodup.map ?_ (List.nodup_range _)
    intro a b hab
    have := suffixed_inj base ext (2 + a) (2 + b) hab
    omega
  have hcard1 :
      ((List.range (fs.length + 1)).map (fun j => suffixed base ext (2 + j))).toFinset.card =
        fs.length + 1 := by
    rw [List.toFinset_card_of_nodup hnodup]
    simp
  have hcard2 :
      ((List.range (fs.length + 1)).map (fun j => suffixed base ext (2 + j))).toFinset ⊆
        fs.toFinset := by
    intro x hx
    rw [List.mem_toFinset] at hx ⊢
    exact hsub hx
  have hle := Finset.card_le_card hcard2
  have hfs := List.toFinset_card_le fs
  omega

/-- The name chosen by `get_unique_filename` never collides with an existing
file. -/
theorem getUniqueFilename_not_mem (fs : List String) (filepath : String) :
    getUniqueFilename fs filepath ∉ fs := by
  unfold getUniqueFilename
  by_cases h : filepath ∈ fs
  · rw [if_pos h]
    obtain ⟨j, hj, hfree⟩ := exists_free_suffixed fs (splitext filepath).1 (splitext filepath).2
    obtain ⟨k, _, he, hkfree, _⟩ :=
      uniqueFrom_spec fs (splitext filepath).1 (splitext filepath).2 (fs.length + 1) 2
        ⟨j, hj, hfree⟩
    rw [he]
    exact hkfree
  · rw [if_neg h]
    exact h

/-- When the filepath already exists, `get_unique_filename` picks the first
free underscore-numbered variant, counting from 2. -/
theorem getUniqueFilename_first_free (fs : List String) (filepath : String)
    (h : filepath ∈ fs) :
    ∃ k, 2 ≤ k
      ∧ getUniqueFilename fs filepath =
          suffixed (splitext filepath).1 (splitext filepath).2 k
      ∧ suffixed (splitext filepath).1 (splitext filepath).2 k ∉ fs
      ∧ ∀ j, 2 ≤ j → j < k →
          suffixed (splitext filepath).1 (splitext filepath).2 j ∈ fs := by
  obtain ⟨j, hj, hfree⟩ := exists_free_suffixed fs (splitext filepath).1 (splitext filepath).2
  obtain ⟨k, hk1, hk2, hk3, hk4⟩ :=
    uniqueFrom_spec fs (splitext filepath).1 (splitext filepath).2 (fs.length + 1) 2
      ⟨j, hj, hfree⟩
  refine ⟨k, hk1, ?_, hk3, hk4⟩
  unfold getUniqueFilename
  rw [if_pos h]
  exact hk2


theorem splitext_fits (stem : String) (hdot : '.' ∉ stem.data) (hslash : '/' ∉ stem.data)
    (hne : stem.data ≠ []) :
    splitext (("spectra/" ++ stem) ++ ".fits") = ("spectra/" ++ stem, ".fits") := by
  have hdata : (("spectra/" ++ stem) ++ ".fits").data =
      (("spectra/").data ++ stem.data) ++ (".fits").data := by
    simp only [String.data_append]
  have hlenA : ("spectra/").data.length = 8 := rfl
  have hd : rfindIdx ((("spectra/").data ++ stem.data) ++ (".fits").data) '.' =
      some (8 + stem.data.length) := by
    unfold rfindIdx
    rw [rfindAux_append, rfindAux_append,
      rfindAux_not_mem ('.') (("spectra/").data) 0 none (by decide),
      rfindAux_not_mem ('.') stem.data (0 + ("spectra/").data.length) none hdot,
      rfindAux_fits]
    congr 1
    rw [List.length_append, hlenA]
    omega
  have hs : rfindIdx ((("spectra/").data ++ stem.data) ++ (".fits").data) '/' =
      some 7 := by
    unfold rfindIdx
    rw [rfindAux_append, rfindAux_append]
    have hA : rfindAux (("spectra/").data) '/' 0 none = some 7 := by decide
    rw [hA, rfindAux_not_mem ('/') stem.data (0 + ("spectra/").data.length) (some 7) hslash,
      rfindAux_fits_slash]
  unfold splitext
  dsimp only
  rw [hdata, hd, hs]
  dsimp only
  have hcond : 7 + 1 ≤ 8 + stem.data.length ∧
      ((((("spectra/").data ++ stem.data) ++ (".fits").data).drop (7 + 1)).take
        (8 + stem.data.length - (7 + 1))).any (fun x => x ≠ '.') = true := by
    refine ⟨by omega, ?_⟩
    have hdrop : ((("spectra/").data ++ stem.data) ++ (".fits").data).drop (7 + 1) =
        stem.data ++ (".fits").data := by
      rw [List.append_assoc]
      exact List.drop_left' (by decide)
    have htake : (stem.data ++ (".fits").data).take (8 + stem.data.length - (7 + 1)) =
        stem.data := by
      have e : 8 + stem.data.length - (7 + 1) = stem.data.length := by omega
      rw [e]
      exact List.take_left' rfl
    rw [hdrop, htake, List.any_eq_true]
    cases hS : stem.data with
    | nil => exact absurd hS hne
    | cons x xs =>
      refine ⟨x, List.mem_cons_self _ _, ?_⟩
      have hdot2 : '.' ∉ (x :: xs) := by rw [← hS]; exact hdot
      have hxd : ¬ x = '.' := fun he => hdot2 (by rw [he]; exact List.mem_cons_self _ _)
      simpa using hxd
  rw [if_pos hcond]
  have htake2 : ((("spectra/").data ++ stem.data) ++ (".fits").data).take
      (8 + stem.data.length) = ("spectra/").data ++ stem.data :=
    List.take_left' (by rw [List.length_append, hlenA])
  have hdrop2 : ((("spectra/").data ++ stem.data) ++ (".fits").data).drop
      (8 + stem.data.length) = (".fits").data :=
    List.drop_left' (by rw [List.length_append, hlenA])
  rw [htake2, hdrop2]
  have h1 : (⟨("spectra/").data ++ stem.data⟩ : String) = "spectra/" ++ stem :=
    String.ext (by simp [String.data_append])
  rw [h1]

theorem specStem_no_slash (p m f : Nat) : ∀ c ∈ (specStem p m f).data, c ≠ '/' := by
  have hp := pad4_isDigit p
  have hm := repr_isDigit m
  have hf := pad5_isDigit f
  simp only [specStem, String.data_append, List.forall_mem_append]
  repeat' apply And.intro
  all_goals
    first
    | decide
    | (intro c hc hq
       rw [hq] at hc
       first
       | exact absurd (hp _ hc) (by decide)
       | exact absurd (hm _ hc) (by decide)
       | exact absurd (hf _ hc) (by decide))

theorem specStem_no_dot (p m f : Nat) : ∀ c ∈ (specStem p m f).data, c ≠ '.' := by
  have hp := pad4_isDigit p
  have hm := repr_isDigit m
  have hf := pad5_isDigit f
  simp only [specStem, String.data_append, List.forall_mem_append]
  repeat' apply And.intro
  all_goals
    first
    | decide
    | (intro c hc hq
       rw [hq] at hc
       first
       | exact absurd (hp _ hc) (by decide)
       | exact absurd (hm _ hc) (by decide)
       | exact absurd (hf _ hc) (by decide))

theorem specStem_head (p m f : Nat) :
    ∃ rest : List Char, (specStem p m f).data = 's' :: rest := ⟨_, rfl⟩

theorem specStem_ne_nil (p m f : Nat) : (specStem p m f).data ≠ [] := by
  intro h
  obtain ⟨rest, hr⟩ := specStem_head p m f
  rw [h] at hr
  simp at hr

theorem splitext_spec_path (p m f : Nat) :
    splitext ("spectra/" ++ filenameBase p m f) =
      ("spectra/" ++ specStem p m f, ".fits") := by
  have hassoc : "spectra/" ++ filenameBase p m f =
      ("spectra/" ++ specStem p m f) ++ ".fits" := by
    simp [filenameBase, String.append_assoc]
  rw [hassoc]
  exact splitext_fits (specStem p m f)
    (fun h => specStem_no_dot p m f ('.') h rfl)
    (fun h => specStem_no_slash p m f ('/') h rfl)
    (specStem_ne_nil p m f)


theorem filenameBase_no_slash (p m f : Nat) : '/' ∉ (filenameBase p m f).data := by
  intro h
  simp only [filenameBase, String.data_append, List.mem_append] at h
  rcases h with h | h
  · exact specStem_no_slash p m f ('/') h rfl
  · exact absurd h (by decide)

theorem name2_no_slash (p m f : Nat) :
    '/' ∉ (specStem p m f ++ "_" ++ Nat.repr 2 ++ ".fits").data := by
  intro h
  simp only [String.data_append, List.mem_append] at h
  rcases h with ((h | h) | h) | h
  · exact specStem_no_slash p m f ('/') h rfl
  · exact absurd h (by decide)
  · exact absurd h (by decide)
  · exact absurd h (by decide)

/-- C9: the saved filename never collides with an existing file at the
moment of write; when the target path already exists the chosen name is the
first free underscore-numbered variant counting from 2; and two successful
downloads of the same target into a fresh directory save two distinct files,
the second carrying the suffix number 2 before the extension. -/
theorem unique_filenames :
    (∀ (fs : List String) (filepath : String), getUniqueFilename fs filepath ∉ fs)
  ∧ (∀ (fs : List String) (filepath : String), filepath ∈ fs →
      ∃ k, 2 ≤ k
        ∧ getUniqueFilename fs filepath =
            suffixed (splitext filepath).1 (splitext filepath).2 k
        ∧ suffixed (splitext filepath).1 (splitext filepath).2 k ∉ fs
        ∧ ∀ j, 2 ≤ j → j < k →
            suffixed (splitext filepath).1 (splitext filepath).2 j ∈ fs)
  ∧ ∀ p m f : Nat,
      (downloadWithRetry (fun _ => AttemptResult.resp 200 none) ("u1")
          ("spectra/" ++ filenameBase p m f) false 0 initState).1 =
        (true, filenameBase p m f)
      ∧ (downloadWithRetry (fun _ => AttemptResult.resp 200 none) ("u2")
            ("spectra/" ++ filenameBase p m f) false 0
            (downloadWithRetry (fun _ => AttemptResult.resp 200 none) ("u1")
              ("spectra/" ++ filenameBase p m f) false 0 initState).2).1 =
          (true, specStem p m f ++ "_" ++ Nat.repr 2 ++ ".fits")
      ∧ (specStem p m f ++ "_" ++ Nat.repr 2 ++ ".fits") ≠ filenameBase p m f
      ∧ (downloadWithRetry (fun _ => AttemptResult.resp 200 none) ("u2")
            ("spectra/" ++ filenameBase p m f) false 0
            (downloadWithRetry (fun _ => AttemptResult.resp 200 none) ("u1")
              ("spectra/" ++ filenameBase p m f) false 0 initState).2).2.fs =
          [suffixed ("spectra/" ++ specStem p m f) (".fits") 2,
            "spectra/" ++ filenameBase p m f]
      ∧ suffixed ("spectra/" ++ specStem p m f) (".fits") 2 ≠
          "spectra/" ++ filenameBase p m f := by
  refine ⟨getUniqueFilename_not_mem, getUniqueFilename_first_free, ?_⟩
  intro p m f
  have hfp_assoc : "spectra/" ++ filenameBase p m f =
      ("spectra/" ++ specStem p m f) ++ ".fits" := by
    simp [filenameBase, String.append_assoc]
  have hneq : suffixed ("spectra/" ++ specStem p m f) (".fits") 2 ≠
      "spectra/" ++ filenameBase p m f := by
    intro h
    have hd := congrArg (fun s : String => s.data.length) h
    simp only [suffixed, hfp_assoc, String.data_append, List.length_append] at hd
    have e1 : ("_").data.length = 1 := rfl
    have e2 : (Nat.repr 2).data.length = 1 := rfl
    rw [e1, e2] at hd
    omega
  have hgu1 : getUniqueFilename initState.fs ("spectra/" ++ filenameBase p m f) =
      "spectra/" ++ filenameBase p m f := by
    show getUniqueFilename [] _ = _
    unfold getUniqueFilename
    rw [if_neg (List.not_mem_nil _)]
  have hb1 : basename ("spectra/" ++ filenameBase p m f) = filenameBase p m f :=
    basename_under_dir _ (filenameBase_no_slash p m f)
  have hr1 := downloadWithRetry_ok_first (fun _ => AttemptResult.resp 200 none) ("u1")
    ("spectra/" ++ filenameBase p m f) false 0 initState rfl
  rw [hgu1, hb1] at hr1
  have hgu2 : getUniqueFilename (("spectra/" ++ filenameBase p m f) :: initState.fs)
      ("spectra/" ++ filenameBase p m f) =
      suffixed ("spectra/" ++ specStem p m f) (".fits") 2 := by
    show getUniqueFilename [("spectra/" ++ filenameBase p m f)] _ = _
    obtain ⟨k, hk2le, hkeq, hkfree, hkfirst⟩ :=
      getUniqueFilename_first_free [("spectra/" ++ filenameBase p m f)]
        ("spectra/" ++ filenameBase p m f) (List.mem_singleton.mpr rfl)
    rw [splitext_spec_path p m f] at hkeq hkfirst
    dsimp only at hkeq hkfirst
    have hk2 : k = 2 := by
      by_contra hne2
      have h2lt : 2 < k := by omega
      have hmem := hkfirst 2 (Nat.le_refl _) h2lt
      rw [List.mem_singleton] at hmem
      exact hneq hmem
    rw [hk2] at hkeq
    exact hkeq
  have hsuf : suffixed ("spectra/" ++ specStem p m f) (".fits") 2 =
      "spectra/" ++ (specStem p m f ++ "_" ++ Nat.repr 2 ++ ".fits") := by
    simp [suffixed, String.append_assoc]
  have hb2 : basename (suffixed ("spectra/" ++ specStem p m f) (".fits") 2) =
      specStem p m f ++ "_" ++ Nat.repr 2 ++ ".fits" := by
    rw [hsuf]
    exact basename_under_dir _ (name2_no_slash p m f)
  have hname_ne : (specStem p m f ++ "_" ++ Nat.repr 2 ++ ".fits") ≠ filenameBase p m f := by
    intro h
    have hd := congrArg (fun s : String => s.data.length) h
    simp only [filenameBase, String.data_append, List.length_append] at hd
    have e1 : ("_").data.length = 1 := rfl
    have e2 : (Nat.repr 2).data.length = 1 := rfl
    have e3 : ((".fits")).data.length = 5 := rfl
    rw [e1, e2, e3] at hd
    omega
  refine ⟨?_, ?_, hname_ne, ?_, hneq⟩
  · rw [hr1]
  · rw [hr1]
    dsimp only
    rw [downloadWithRetry_ok_first (fun _ => AttemptResult.resp 200 none) ("u2")
      ("spectra/" ++ filenameBase p m f) false 0 _ rfl]
    dsimp only
    rw [hgu2, hb2]
  · rw [hr1]
    dsimp only
    rw [downloadWithRetry_ok_first (fun _ => AttemptResult.resp 200 none) ("u2")
      ("spectra/" ++ filenameBase p m f) false 0 _ rfl]
    dsimp only
    rw [hgu2]
    rfl

set_option maxRecDepth 65536 in
/-- Witness for C9: a one-file directory and the two-download scenario at
target (751, 52251, 160). -/
theorem unique_filenames_witness :
    getUniqueFilename ["spectra/a.fits"] ("spectra/a.fits") ∉ (["spectra/a.fits"] : List String)
  ∧ (∃ k, 2 ≤ k
      ∧ getUniqueFilename ["spectra/a.fits"] ("spectra/a.fits") =
          suffixed (splitext ("spectra/a.fits")).1 (splitext ("spectra/a.fits")).2 k
      ∧ suffixed (splitext ("spectra/a.fits")).1 (splitext ("spectra/a.fits")).2 k ∉
          (["spectra/a.fits"] : List String)
      ∧ ∀ j, 2 ≤ j → j < k →
          suffixed (splitext ("spectra/a.fits")).1 (splitext ("spectra/a.fits")).2 j ∈
            (["spectra/a.fits"] : List String))
  ∧ ((downloadWithRetry (fun _ => AttemptResult.resp 200 none) ("u1")
        ("spectra/" ++ filenameBase 751 52251 160) false 0 initState).1 =
      (true, filenameBase 751 52251 160)
    ∧ (downloadWithRetry (fun _ => AttemptResult.resp 200 none) ("u2")
          ("spectra/" ++ filenameBase 751 52251 160) false 0
          (downloadWithRetry (fun _ => AttemptResult.resp 200 none) ("u1")
            ("spectra/" ++ filenameBase 751 52251 160) false 0 initState).2).1 =
        (true, specStem 751 52251 160 ++ "_" ++ Nat.repr 2 ++ ".fits")
    ∧ (specStem 751 52251 160 ++ "_" ++ Nat.repr 2 ++ ".fits") ≠ filenameBase 751 52251 160
    ∧ (downloadWithRetry (fun _ => AttemptResult.resp 200 none) ("u2")
          ("spectra/" ++ filenameBase 751 52251 160) false 0
          (downloadWithRetry (fun _ => AttemptResult.resp 200 none) ("u1")
            ("spectra/" ++ filenameBase 751 52251 160) false 0 initState).2).2.fs =
        [suffixed ("spectra/" ++ specStem 751 52251 160) (".fits") 2,
          "spectra/" ++ filenameBase 751 52251 160]
    ∧ suffixed ("spectra/" ++ specStem 751 52251 160) (".fits") 2 ≠
        "spectra/" ++ filenameBase 751 52251 160) :=
  ⟨unique_filenames.1 ["spectra/a.fits"] ("spectra/a.fits"),
   unique_filenames.2.1 ["spectra/a.fits"] ("spectra/a.fits") (by decide),
   unique_filenames.2.2 751 52251 160⟩

end SdssFetch
